import Mathlib

/-!
# mixfile_weibo: the upload relay of `main.go`

A shallow embedding of `src/main.go` and the properties of its specification.

* `crc32` is the checksum routine, over `Nat` registers with the 32-bit wrap-around written out.
* The handlers and `main` are functions of their configuration and of an explicit record of the
  outcomes of the I/O steps they perform (reading bodies, the upstream call, serving a file,
  opening the configuration file, running the listener).
* The library calls whose result the program inspects (`encoding/json`, `fmt`, `net/url`,
  `net/http` headers, gin's `Header` and `String`) are modelled next to their call sites.
-/

set_option maxRecDepth 100000

namespace Weibo

/-! ## Checksum (`crc32`, main.go lines 38-47) -/

/-- The constant `0xedb88320` of line 43. -/
def poly : Nat := 0xedb88320

/-- Unary minus on `uint32`: negation modulo `2 ^ 32`. -/
def neg32 (x : Nat) : Nat := (2 ^ 32 - x % 2 ^ 32) % 2 ^ 32

/-- One pass of the inner loop, line 43: `crc = (crc >> 1) ^ (-(crc & 1) & 0xedb88320)`. -/
def crcStep (crc : Nat) : Nat :=
  (crc >>> 1) ^^^ (neg32 (crc &&& 1) &&& poly)

/-- The body of the outer loop, lines 41-44: `crc ^= uint32(b)` followed by eight steps. -/
def crcByte (crc : Nat) (b : UInt8) : Nat :=
  Nat.iterate crcStep 8 (crc ^^^ b.toNat)

/-- The function `crc32` of main.go: register `0xffffffff`, one `crcByte` per byte, final
`crc ^ 0xffffffff`. -/
def crc32 (buffer : List UInt8) : Nat :=
  (buffer.foldl crcByte 0xffffffff) ^^^ 0xffffffff

/-! ### The bit-by-bit CRC-32 of the specification -/

/-- The conditional step of the specification: shift right by one, and XOR the polynomial in
when the low bit was set. -/
def specStep (r : Nat) : Nat :=
  if r % 2 = 1 then (r >>> 1) ^^^ 0xEDB88320 else r >>> 1

/-- The per-byte update of the specification: XOR the byte into the register, then eight
conditional steps. -/
def specByte (r : Nat) (b : UInt8) : Nat :=
  specStep (specStep (specStep (specStep (specStep (specStep (specStep (specStep
    (r ^^^ b.toNat))))))))

/-- The reflected CRC-32 as the specification words it. -/
def specCrc32 : List UInt8 → Nat → Nat
  | [], r => r ^^^ 0xFFFFFFFF
  | b :: rest, r => specCrc32 rest (specByte r b)

/-- Inverse of one step on 32-bit registers: the top bit of the result tells whether the
polynomial was XORed in, that is, the low bit of the argument. -/
def crcUnstep (d : Nat) : Nat :=
  if 2 ^ 31 ≤ d then 2 * (d ^^^ poly) + 1 else 2 * d

/-- The ASCII / UTF-8 bytes of a string. -/
def utf8 (s : String) : List UInt8 := s.data.flatMap String.utf8EncodeChar

/-! ## `fmt` verbs -/

/-- The digit loop of `fmt` for `%d`: while `u >= 10` emit `u % 10` and divide, then emit the
leading digit. The first argument bounds the number of passes. -/
def decDigits : Nat → Nat → List Char → List Char
  | 0, u, acc => Char.ofNat (48 + u % 10) :: acc
  | fuel + 1, u, acc =>
    if 10 ≤ u then decDigits fuel (u / 10) (Char.ofNat (48 + u % 10) :: acc)
    else Char.ofNat (48 + u) :: acc

/-- The verb `%d` applied to an unsigned integer. -/
def fmtUint (u : Nat) : String := String.mk (decDigits u u [])

/-- The verb `%d` applied to a signed integer. -/
def fmtInt (n : Int) : String :=
  if n < 0 then "-" ++ fmtUint n.natAbs else fmtUint n.toNat

/-- The value of a string of decimal digits. -/
def decimalValue (ds : List Char) : Nat :=
  ds.foldl (fun acc c => 10 * acc + (c.toNat - 48)) 0

/-! ## `encoding/json`, as far as the program uses it -/

/-- A JSON value as the scanner of `encoding/json` delimits it. A number keeps its literal text,
a string is already unquoted. -/
inductive JValue where
  | null : JValue
  | bool (b : Bool) : JValue
  | number (lit : String) : JValue
  | string (s : String) : JValue
  | array (items : List JValue) : JValue
  | object (members : List (String × JValue)) : JValue

/-- The scanner's `isSpace`: space, tab, carriage return, line feed. -/
def isSpace (c : UInt8) : Bool :=
  c.toNat == 32 || c.toNat == 9 || c.toNat == 13 || c.toNat == 10

/-- Drop leading white space. -/
def skipSpace : List UInt8 → List UInt8
  | [] => []
  | c :: rest => if isSpace c then skipSpace rest else c :: rest

/-- The value of a hexadecimal digit of a `\\u` escape, in either case. -/
def hexVal (c : UInt8) : Option Nat :=
  let n := c.toNat
  if 48 ≤ n ∧ n ≤ 57 then some (n - 48)
  else if 97 ≤ n ∧ n ≤ 102 then some (n - 87)
  else if 65 ≤ n ∧ n ≤ 70 then some (n - 55)
  else none

/-- A UTF-8 continuation byte. -/
def isCont (c : UInt8) : Bool := 0x80 ≤ c.toNat && c.toNat ≤ 0xBF

/-- The rune `unicode.ReplacementChar`. -/
def replacementChar : Char := Char.ofNat 0xFFFD

/-- The function `utf8.DecodeRune` on an input that starts with `b0`: the rune and the remaining
input. An invalid, overlong, surrogate or truncated sequence yields U+FFFD and consumes one
byte. -/
def decodeRune (b0 : UInt8) (rest : List UInt8) : Char × List UInt8 :=
  let n0 := b0.toNat
  if n0 < 0x80 then (Char.ofNat n0, rest)
  else if 0xC2 ≤ n0 ∧ n0 ≤ 0xDF then
    match rest with
    | b1 :: r1 =>
      if isCont b1 then (Char.ofNat ((n0 &&& 0x1F) <<< 6 ||| (b1.toNat &&& 0x3F)), r1)
      else (replacementChar, rest)
    | _ => (replacementChar, rest)
  else if 0xE0 ≤ n0 ∧ n0 ≤ 0xEF then
    match rest with
    | b1 :: b2 :: r2 =>
      let lo := if n0 = 0xE0 then 0xA0 else 0x80
      let hi := if n0 = 0xED then 0x9F else 0xBF
      if lo ≤ b1.toNat ∧ b1.toNat ≤ hi ∧ isCont b2 then
        (Char.ofNat ((n0 &&& 0x0F) <<< 12 ||| (b1.toNat &&& 0x3F) <<< 6 ||| (b2.toNat &&& 0x3F)), r2)
      else (replacementChar, rest)
    | _ => (replacementChar, rest)
  else if 0xF0 ≤ n0 ∧ n0 ≤ 0xF4 then
    match rest with
    | b1 :: b2 :: b3 :: r3 =>
      let lo := if n0 = 0xF0 then 0x90 else 0x80
      let hi := if n0 = 0xF4 then 0x8F else 0xBF
      if lo ≤ b1.toNat ∧ b1.toNat ≤ hi ∧ isCont b2 ∧ isCont b3 then
        (Char.ofNat ((n0 &&& 0x07) <<< 18 ||| (b1.toNat &&& 0x3F) <<< 12
          ||| (b2.toNat &&& 0x3F) <<< 6 ||| (b3.toNat &&& 0x3F)), r3)
      else (replacementChar, rest)
    | _ => (replacementChar, rest)
  else (replacementChar, rest)

/-- A piece of a string literal: a decoded rune, or the 16-bit value of a `\\uXXXX` escape,
kept apart until surrogate halves are paired. -/
inductive StrUnit where
  | chr (c : Char) : StrUnit
  | esc (u : Nat) : StrUnit

/-- The inside of a string literal up to its closing quote: escapes as the scanner accepts them,
control bytes rejected, other bytes decoded as UTF-8 the way `unquoteBytes` does. The first
argument bounds the number of pieces. -/
def scanStringBody : Nat → List UInt8 → List StrUnit → Option (List StrUnit × List UInt8)
  | 0, _, _ => none
  | _ + 1, [], _ => none
  | fuel + 1, c :: rest, acc =>
    if c.toNat == 34 then some (acc.reverse, rest)
    else if c.toNat == 92 then
      match rest with
      | [] => none
      | e :: rest1 =>
        let n := e.toNat
        if n == 34 ∨ n == 92 ∨ n == 47 then scanStringBody fuel rest1 (.chr (Char.ofNat n) :: acc)
        else if n == 98 then scanStringBody fuel rest1 (.chr (Char.ofNat 8) :: acc)
        else if n == 102 then scanStringBody fuel rest1 (.chr (Char.ofNat 12) :: acc)
        else if n == 110 then scanStringBody fuel rest1 (.chr (Char.ofNat 10) :: acc)
        else if n == 114 then scanStringBody fuel rest1 (.chr (Char.ofNat 13) :: acc)
        else if n == 116 then scanStringBody fuel rest1 (.chr (Char.ofNat 9) :: acc)
        else if n == 117 then
          match rest1 with
          | h1 :: h2 :: h3 :: h4 :: rest2 =>
            match hexVal h1, hexVal h2, hexVal h3, hexVal h4 with
            | some a, some b, some c, some d =>
              scanStringBody fuel rest2 (.esc (((a * 16 + b) * 16 + c) * 16 + d) :: acc)
            | _, _, _, _ => none
          | _ => none
        else none
    else if c.toNat < 32 then none
    else
      let (r, rest1) := decodeRune c rest
      scanStringBody fuel rest1 (.chr r :: acc)

/-- The test `utf16.IsSurrogate`. -/
def isSurrogate (u : Nat) : Bool := 0xD800 ≤ u && u < 0xE000

/-- The rune sequence of a literal: a high surrogate escape directly followed by a low surrogate
escape is one rune, any other surrogate escape is U+FFFD (`unquoteBytes`). -/
def combineUnits : List StrUnit → List Char
  | [] => []
  | .chr c :: rest => c :: combineUnits rest
  | .esc hi :: .esc lo :: rest =>
    if isSurrogate hi then
      if 0xD800 ≤ hi ∧ hi < 0xDC00 ∧ 0xDC00 ≤ lo ∧ lo < 0xE000 then
        Char.ofNat (((hi - 0xD800) <<< 10 ||| (lo - 0xDC00)) + 0x10000) :: combineUnits rest
      else replacementChar :: combineUnits (.esc lo :: rest)
    else Char.ofNat hi :: combineUnits (.esc lo :: rest)
  | .esc u :: rest =>
    (if isSurrogate u then replacementChar else Char.ofNat u) :: combineUnits rest

/-- A string literal after its opening quote: the unquoted string and the rest of the input. -/
def parseString (input : List UInt8) : Option (String × List UInt8) :=
  match scanStringBody (input.length + 1) input [] with
  | some (units, rest) => some (String.mk (combineUnits units), rest)
  | none => none


/-- An ASCII decimal digit. -/
def isDigit (c : UInt8) : Bool := 48 ≤ c.toNat && c.toNat ≤ 57

/-- The longest run of digits at the front of the input. -/
def takeDigits : List UInt8 → List Char × List UInt8
  | [] => ([], [])
  | c :: rest =>
    if isDigit c then
      let (ds, r) := takeDigits rest
      (Char.ofNat c.toNat :: ds, r)
    else ([], c :: rest)

/-- The integer part of a number: a single `0`, or a non-zero digit and more digits. -/
def scanInt (input : List UInt8) : Option (List Char × List UInt8) :=
  match input with
  | [] => none
  | d :: rest =>
    if d.toNat == 48 then some ([Char.ofNat 48], rest)
    else if isDigit d then
      let (ds, r) := takeDigits rest
      some (Char.ofNat d.toNat :: ds, r)
    else none

/-- An optional fraction: a dot and at least one digit. -/
def scanFrac (input : List UInt8) : Option (List Char × List UInt8) :=
  match input with
  | c :: rest =>
    if c.toNat == 46 then
      match takeDigits rest with
      | ([], _) => none
      | (ds, r) => some (Char.ofNat 46 :: ds, r)
    else some ([], input)
  | [] => some ([], input)

/-- An optional exponent: `e` or `E`, an optional sign, at least one digit. -/
def scanExp (input : List UInt8) : Option (List Char × List UInt8) :=
  match input with
  | c :: rest =>
    if c.toNat == 101 ∨ c.toNat == 69 then
      let (sign, rest1) : List Char × List UInt8 :=
        match rest with
        | s :: r => if s.toNat == 43 ∨ s.toNat == 45 then ([Char.ofNat s.toNat], r) else ([], rest)
        | [] => ([], rest)
      match takeDigits rest1 with
      | ([], _) => none
      | (ds, r) => some (Char.ofNat c.toNat :: (sign ++ ds), r)
    else some ([], input)
  | [] => some ([], input)

/-- A number literal: optional minus, integer part, optional fraction, optional exponent. -/
def scanNumber (input : List UInt8) : Option (String × List UInt8) :=
  let (sign, rest0) : List Char × List UInt8 :=
    match input with
    | c :: r => if c.toNat == 45 then ([Char.ofNat 45], r) else ([], input)
    | [] => ([], input)
  match scanInt rest0 with
  | none => none
  | some (ip, rest1) =>
    match scanFrac rest1 with
    | none => none
    | some (fp, rest2) =>
      match scanExp rest2 with
      | none => none
      | some (ep, rest3) => some (String.mk (sign ++ ip ++ fp ++ ep), rest3)

/-- The input after the given bytes, when it starts with them. -/
def expectBytes : List UInt8 → List UInt8 → Option (List UInt8)
  | [], input => some input
  | _ :: _, [] => none
  | p :: ps, c :: rest => if p == c then expectBytes ps rest else none

/-- The scanner's `maxNestingDepth`. -/
def maxNestingDepth : Nat := 10000

mutual
/-- One JSON value at the front of the input, after optional white space, with the rest of the
input. The first argument bounds the number of nested calls, the second counts the open
objects and arrays. -/
def parseValue : Nat → Nat → List UInt8 → Option (JValue × List UInt8)
  | 0, _, _ => none
  | fuel + 1, depth, input =>
    match skipSpace input with
    | [] => none
    | c :: rest =>
      let n := c.toNat
      if n == 123 then
        if maxNestingDepth ≤ depth then none
        else
          match skipSpace rest with
          | [] => none
          | c1 :: rest1 =>
            if c1.toNat == 125 then some (.object [], rest1)
            else parseMembers fuel (depth + 1) (c1 :: rest1) []
      else if n == 91 then
        if maxNestingDepth ≤ depth then none
        else
          match skipSpace rest with
          | [] => none
          | c1 :: rest1 =>
            if c1.toNat == 93 then some (.array [], rest1)
            else parseElements fuel (depth + 1) (c1 :: rest1) []
      else if n == 34 then
        match parseString rest with
        | some (s, rest1) => some (.string s, rest1)
        | none => none
      else if n == 45 ∨ isDigit c then
        match scanNumber (c :: rest) with
        | some (lit, rest1) => some (.number lit, rest1)
        | none => none
      else if n == 116 then
        match expectBytes [114, 117, 101] rest with
        | some rest1 => some (.bool true, rest1)
        | none => none
      else if n == 102 then
        match expectBytes [97, 108, 115, 101] rest with
        | some rest1 => some (.bool false, rest1)
        | none => none
      else if n == 110 then
        match expectBytes [117, 108, 108] rest with
        | some rest1 => some (.null, rest1)
        | none => none
      else none
/-- The members of an object from a key on, up to the closing brace. -/
def parseMembers : Nat → Nat → List UInt8 → List (String × JValue) → Option (JValue × List UInt8)
  | 0, _, _, _ => none
  | fuel + 1, depth, input, acc =>
    match skipSpace input with
    | [] => none
    | q :: rest =>
      if q.toNat == 34 then
        match parseString rest with
        | none => none
        | some (key, rest1) =>
          match skipSpace rest1 with
          | [] => none
          | colon :: rest2 =>
            if colon.toNat == 58 then
              match parseValue fuel depth rest2 with
              | none => none
              | some (v, rest3) =>
                match skipSpace rest3 with
                | [] => none
                | sep :: rest4 =>
                  if sep.toNat == 44 then parseMembers fuel depth rest4 (acc ++ [(key, v)])
                  else if sep.toNat == 125 then some (.object (acc ++ [(key, v)]), rest4)
                  else none
            else none
      else none
/-- The elements of an array from a value on, up to the closing bracket. -/
def parseElements : Nat → Nat → List UInt8 → List JValue → Option (JValue × List UInt8)
  | 0, _, _, _ => none
  | fuel + 1, depth, input, acc =>
    match parseValue fuel depth input with
    | none => none
    | some (v, rest1) =>
      match skipSpace rest1 with
      | [] => none
      | sep :: rest2 =>
        if sep.toNat == 44 then parseElements fuel depth rest2 (acc ++ [v])
        else if sep.toNat == 93 then some (.array (acc ++ [v]), rest2)
        else none
end

/-- The first JSON value of a document and what follows it. Twice the length bounds the number
of nested calls: every second call consumes a byte. -/
def parseJSON (data : List UInt8) : Option (JValue × List UInt8) :=
  parseValue (2 * data.length + 2) 0 data

/-- An error value (`error` in Go), by origin. The error of the listener (`*net.OpError` of
`net.Listen`) names the address it was asked to listen on, as in
`listen tcp :8080: bind: address already in use` or `listen tcp: address 70000: invalid port`. -/
inductive GoError where
  | os (msg : String) : GoError
  | jsonEOF : GoError
  | jsonMalformed : GoError
  | jsonType (value : String) (field : String) : GoError
  | http (msg : String) : GoError
  | listen (addr : String) (cause : String) : GoError
deriving DecidableEq

/-- The name of a value's kind in an `UnmarshalTypeError`. -/
def JValue.kindName : JValue → String
  | .null => "null"
  | .bool _ => "bool"
  | .number _ => "number"
  | .string _ => "string"
  | .array _ => "array"
  | .object _ => "object"

/-- The fold of `encoding/json`'s `foldName` on the runes that can meet an ASCII letter: ASCII
lower case to upper case, the Kelvin sign to `K`, the long s to `S`. -/
def foldRune (c : Char) : Char :=
  if 97 ≤ c.toNat ∧ c.toNat ≤ 122 then Char.ofNat (c.toNat - 32)
  else if c.toNat = 0x212A then Char.ofNat 75
  else if c.toNat = 0x17F then Char.ofNat 83
  else c

/-- Case-insensitive match of an object key with an ASCII field name. -/
def equalFold (key name : String) : Bool :=
  key.data.map foldRune == name.data.map foldRune

/-- The struct field a key selects: the field with exactly that name, else the first one that
matches under folding. -/
def findField (names : List String) (key : String) : Option String :=
  match names.find? (fun n => n == key) with
  | some n => some n
  | none => names.find? (fun n => equalFold key n)

/-- The function `d.saveError`: the first error is kept. -/
def saveError (saved : Option GoError) (err : GoError) : Option GoError :=
  match saved with
  | some e => some e
  | none => some err

/-- Store a JSON value in a `string` field: a string is stored, `null` leaves the field as it
is, anything else is a type error and leaves the field as it is. -/
def storeString (field : String) (cur : String) (saved : Option GoError) (v : JValue) :
    String × Option GoError :=
  match v with
  | .string s => (s, saved)
  | .null => (cur, saved)
  | other => (cur, saveError saved (.jsonType other.kindName field))

/-- The function `strconv.ParseInt(s, 10, 64)` on a number literal: an optional sign and
digits only, within the range of `int64`. -/
def parseInt64 (lit : String) : Option Int :=
  let (neg, ds) : Bool × List Char :=
    match lit.data with
    | c :: rest => if c.toNat = 45 then (true, rest) else if c.toNat = 43 then (false, rest)
      else (false, c :: rest)
    | [] => (false, [])
  if ds.isEmpty ∨ ¬ ds.all (fun c => 48 ≤ c.toNat ∧ c.toNat ≤ 57) then none
  else
    let n := decimalValue ds
    if neg then (if n ≤ 2 ^ 63 then some (- (n : Int)) else none)
    else (if n < 2 ^ 63 then some (n : Int) else none)

/-- Store a JSON value in an `int` field (64 bits wide): an integer literal in range is stored,
`null` leaves the field as it is, anything else is a type error. -/
def storeInt (field : String) (cur : Int) (saved : Option GoError) (v : JValue) :
    Int × Option GoError :=
  match v with
  | .number lit =>
    match parseInt64 lit with
    | some n => (n, saved)
    | none => (cur, saveError saved (.jsonType ("number " ++ lit) field))
  | .null => (cur, saved)
  | other => (cur, saveError saved (.jsonType other.kindName field))

/-! ## Configuration (`Config`, `loadConfig`, main.go lines 17-36) -/

/-- The struct `Config`; `Port` is a Go `int`, taken 64 bits wide. -/
structure Config where
  Cookie : String
  ImagePath : String
  Referer : String
  Port : Int
deriving DecidableEq

/-- The zero value `var config Config`. -/
def Config.zero : Config := ⟨"", "", "", 0⟩

/-- The JSON names of the fields of `Config`, in declaration order. -/
def configFields : List String := ["cookie", "image_path", "referer", "port"]

/-- One member of the object, decoded into the struct: a key that selects no field is skipped. -/
def decodeConfigMember (acc : Config × Option GoError) (m : String × JValue) :
    Config × Option GoError :=
  let (cfg, saved) := acc
  match findField configFields m.1 with
  | some "cookie" =>
    let (s, e) := storeString "Config.cookie" cfg.Cookie saved m.2
    ({ cfg with Cookie := s }, e)
  | some "image_path" =>
    let (s, e) := storeString "Config.image_path" cfg.ImagePath saved m.2
    ({ cfg with ImagePath := s }, e)
  | some "referer" =>
    let (s, e) := storeString "Config.referer" cfg.Referer saved m.2
    ({ cfg with Referer := s }, e)
  | some "port" =>
    let (n, e) := storeInt "Config.port" cfg.Port saved m.2
    ({ cfg with Port := n }, e)
  | _ => (cfg, saved)

/-- Decode a JSON value into a `Config` that starts as `cfg`: the members of an object in
document order, `null` changes nothing, any other value is a type error. -/
def decodeConfig (cfg : Config) (v : JValue) : Config × Option GoError :=
  match v with
  | .object members => members.foldl decodeConfigMember (cfg, none)
  | .null => (cfg, none)
  | other => (cfg, some (.jsonType other.kindName "Config"))

/-- The value a document gives to a string field: the string of the last member whose key
selects the field, the empty string when no member selects it or the last one holds no
string. -/
def givenString (field : String) (members : List (String × JValue)) : String :=
  match members.reverse.find? (fun m => findField configFields m.1 == some field) with
  | some (_, .string s) => s
  | _ => ""

/-- The call `json.NewDecoder(file).Decode(&config)` on a file with the given bytes: the first
JSON value of the stream is decoded, what follows it is not looked at. -/
def decoderDecode (data : List UInt8) (config : Config) : Config × Option GoError :=
  match skipSpace data with
  | [] => (config, some .jsonEOF)
  | _ :: _ =>
    match parseJSON data with
    | none => (config, some .jsonMalformed)
    | some (v, _) => decodeConfig config v

/-- The file system as `loadConfig` meets it: `os.Open` fails, or gives a file whose reads
deliver its bytes. -/
structure FileSystem where
  openFile : String → Except GoError (List UInt8)

/-- The function `loadConfig` of main.go: the pair `(config, err)` it returns. -/
def loadConfig (fs : FileSystem) (filename : String) : Config × Option GoError :=
  let config := Config.zero
  match fs.openFile filename with
  | .error err => (config, some err)
  | .ok file => decoderDecode file config

/-! ## The upstream reply (main.go lines 112-117) -/

/-- The inner struct `Pic` of `result`. -/
structure Pic where
  Pid : String
deriving DecidableEq

/-- The anonymous struct `result` of the PUT handler. -/
structure UploadResult where
  Pic : Pic
deriving DecidableEq

/-- One member of the inner object `pic`. -/
def decodePicMember (acc : Pic × Option GoError) (m : String × JValue) : Pic × Option GoError :=
  let (pic, saved) := acc
  match findField ["pid"] m.1 with
  | some _ =>
    let (s, e) := storeString "Pic.pid" pic.Pid saved m.2
    ({ pic with Pid := s }, e)
  | none => (pic, saved)

/-- Decode a JSON value into the field `Pic`. -/
def decodePic (pic : Pic) (saved : Option GoError) (v : JValue) : Pic × Option GoError :=
  match v with
  | .object members => members.foldl decodePicMember (pic, saved)
  | .null => (pic, saved)
  | other => (pic, saveError saved (.jsonType other.kindName "pic"))

/-- One member of the outer object. -/
def decodeResultMember (acc : UploadResult × Option GoError) (m : String × JValue) :
    UploadResult × Option GoError :=
  let (res, saved) := acc
  match findField ["pic"] m.1 with
  | some _ =>
    let (p, e) := decodePic res.Pic saved m.2
    ({ res with Pic := p }, e)
  | none => (res, saved)

/-- Decode a JSON value into `result`. -/
def decodeResult (res : UploadResult) (v : JValue) : UploadResult × Option GoError :=
  match v with
  | .object members => members.foldl decodeResultMember (res, none)
  | .null => (res, none)
  | other => (res, some (.jsonType other.kindName ""))

/-- The call `json.Unmarshal(respBody, &result)` with `result` at its zero value: the whole
input must be one JSON value between optional white space. -/
def jsonUnmarshal (data : List UInt8) : UploadResult × Option GoError :=
  let result : UploadResult := ⟨⟨""⟩⟩
  match parseJSON data with
  | none => (result, some .jsonMalformed)
  | some (v, rest) =>
    match skipSpace rest with
    | [] => decodeResult result v
    | _ :: _ => (result, some .jsonMalformed)

/-! ## `net/http` and `net/url` values -/

/-- A header map (`http.Header`): canonical key and its values. -/
abbrev Header := List (String × List String)

/-- A byte allowed in a header field name (`validHeaderFieldByte`): an ASCII letter, a digit, or
one of the token punctuation characters. -/
def isTokenChar (c : Char) : Bool :=
  let n := c.toNat
  (48 ≤ n && n ≤ 57) || (65 ≤ n && n ≤ 90) || (97 ≤ n && n ≤ 122) ||
    [33, 35, 36, 37, 38, 39, 42, 43, 45, 46, 94, 95, 96, 124, 126].contains n

/-- The letter pass of `canonicalMIMEHeaderKey`: upper case at the start and after a dash,
lower case elsewhere. -/
def canonLetters : Bool → List Char → List Char
  | _, [] => []
  | upper, c :: rest =>
    let c1 : Char :=
      if upper ∧ 97 ≤ c.toNat ∧ c.toNat ≤ 122 then Char.ofNat (c.toNat - 32)
      else if ¬ upper ∧ 65 ≤ c.toNat ∧ c.toNat ≤ 90 then Char.ofNat (c.toNat + 32)
      else c
    c1 :: canonLetters (c1.toNat == 45) rest

/-- The function `textproto.CanonicalMIMEHeaderKey`: a name made of token characters is
canonicalised, any other is returned unchanged. -/
def canonicalMIMEHeaderKey (s : String) : String :=
  if s.data.all isTokenChar then String.mk (canonLetters true s.data) else s

/-- The method `Header.Del`. -/
def Header.del (h : Header) (key : String) : Header :=
  h.filter (fun e => e.1 != canonicalMIMEHeaderKey key)

/-- The method `Header.Set`: the key holds exactly the one value afterwards. -/
def Header.set (h : Header) (key value : String) : Header :=
  h.del key ++ [(canonicalMIMEHeaderKey key, [value])]

/-- The values stored under a key, `none` when the key is absent from the map. -/
def Header.values (h : Header) (key : String) : Option (List String) :=
  (h.find? (fun e => e.1 == canonicalMIMEHeaderKey key)).map (fun e => e.2)

/-- The method `Header.Get`: the first value under the key, the empty string when there is
none. -/
def Header.get (h : Header) (key : String) : String :=
  match h.values key with
  | some (v :: _) => v
  | _ => ""

/-- Query values (`url.Values`): key and its values. -/
abbrev Values := List (String × List String)

/-- The method `Values.Add`: append the value to the key's list. -/
def Values.add (v : Values) (key value : String) : Values :=
  if v.any (fun e => e.1 == key) then
    v.map (fun e => if e.1 == key then (e.1, e.2 ++ [value]) else e)
  else v ++ [(key, [value])]

/-- An upper-case hexadecimal digit. -/
def upperHex (n : Nat) : Char :=
  if n < 10 then Char.ofNat (48 + n) else Char.ofNat (55 + n)

/-- A character that `url.QueryEscape` leaves as it is: an ASCII letter, a digit, or one of
`-`, `_`, `.`, `~`. -/
def isUnreserved (c : Char) : Bool :=
  let n := c.toNat
  (48 ≤ n && n ≤ 57) || (65 ≤ n && n ≤ 90) || (97 ≤ n && n ≤ 122) ||
    n == 45 || n == 95 || n == 46 || n == 126

/-- The escape of one character by `url.QueryEscape`: a space becomes `+`, every byte of any
other escaped character becomes `%XX`. -/
def escapeChar (c : Char) : List Char :=
  if isUnreserved c then [c]
  else if c.toNat = 32 then [Char.ofNat 43]
  else (String.utf8EncodeChar c).flatMap
    (fun b => [Char.ofNat 37, upperHex (b.toNat / 16), upperHex (b.toNat % 16)])

/-- The function `url.QueryEscape`. -/
def queryEscape (s : String) : String := String.mk (s.data.flatMap escapeChar)

/-- Lexicographic order of rune sequences; on strings this is the bytewise order of their
UTF-8 encodings, the order of Go's `<` on strings. -/
def ltChars : List Char → List Char → Bool
  | _, [] => false
  | [], _ :: _ => true
  | a :: as, b :: bs => a.toNat < b.toNat || (a.toNat == b.toNat && ltChars as bs)

/-- Insert an entry into a list sorted by key. -/
def insertSorted (x : String × List String) :
    List (String × List String) → List (String × List String)
  | [] => [x]
  | e :: rest =>
    if ltChars x.1.data e.1.data then x :: e :: rest else e :: insertSorted x rest

/-- The entries in ascending order of their keys (`slices.Sort(keys)`). -/
def sortByKey (v : Values) : Values := v.foldr insertSorted []

/-- The method `Values.Encode`: `key=value` pairs, both escaped, sorted by key, joined
by `&`. -/
def Values.encode (v : Values) : String :=
  "&".intercalate
    ((sortByKey v).flatMap (fun e => e.2.map (fun x => queryEscape e.1 ++ "=" ++ queryEscape x)))

/-- The test `isASCIISpace` of `net/textproto`: blank, tab, line feed, carriage return. -/
def isASCIISpace (c : Char) : Bool :=
  c.toNat == 32 || c.toNat == 9 || c.toNat == 10 || c.toNat == 13

/-- The replacer `headerNewlineToSpace` on one character: a line feed or carriage return
becomes a blank. -/
def newlineToSpace (c : Char) : Char :=
  if c.toNat == 10 || c.toNat == 13 then Char.ofNat 32 else c

/-- The function `textproto.TrimString`: leading, then trailing ASCII white space is cut. -/
def trimString (l : List Char) : List Char :=
  ((l.dropWhile isASCIISpace).reverse.dropWhile isASCIISpace).reverse

/-- A header value as `Header.Write` puts it on the connection: line breaks replaced by
blanks, then trimmed. -/
def wireValue (v : String) : String := String.mk (trimString (v.data.map newlineToSpace))

/-- The check `httpguts.ValidHeaderFieldName`: a non-empty token. -/
def validHeaderFieldName (key : String) : Bool :=
  !key.data.isEmpty && key.data.all isTokenChar

/-- The header lines that `Header.Write` produces for a header map: keys in ascending order,
a key that is no valid field name dropped, one line `key: value` per value. -/
def writeHeader (h : Header) : List (String × String) :=
  ((sortByKey h).filter (fun e => validHeaderFieldName e.1)).flatMap
    (fun e => e.2.map (fun v => (e.1, wireValue v)))

/-- The values of the header lines with the given name. -/
def lineValues (lines : List (String × String)) (key : String) : List String :=
  (lines.filter (fun e => e.1 == key)).map (fun e => e.2)

/-- A header value that reaches the connection unchanged: no line feed or carriage return,
and no blank or tab at either end. -/
def cleanValue (v : String) : Bool :=
  v.data.all (fun c => !(c.toNat == 10 || c.toNat == 13)) &&
    (match v.data.head? with
      | some c => !isASCIISpace c
      | none => true) &&
    (match v.data.reverse.head? with
      | some c => !isASCIISpace c
      | none => true)

/-- An outbound request (`http.Request`), as far as the handler fills it in. -/
structure Request where
  Method : String
  URL : String
  RawQuery : String
  Header : Header
  Body : List UInt8
deriving DecidableEq

/-- The check `validMethod` of `net/http`: a non-empty token. -/
def validMethod (method : String) : Bool :=
  ¬ method.data.isEmpty ∧ method.data.all isTokenChar

/-- The function `http.NewRequest` for a URL without query string or fragment: it fails on an
invalid method, else the request has the method, the URL, an empty query, no headers and the
body. -/
def newRequest (method url : String) (body : List UInt8) : Except GoError Request :=
  if validMethod method then
    .ok { Method := method, URL := url, RawQuery := "", Header := [], Body := body }
  else .error (.http "net/http: invalid method")

/-! ## The handlers and `main` (main.go lines 49-145) -/

/-- A line handed to the `log` package: its text, and the error formatted after it with `%v`
when there is one. -/
structure LogLine where
  text : String
  err : Option GoError
deriving DecidableEq

/-- What `c.String(code, format)` writes when no values follow the format: the status and the
format string itself as the body. -/
structure Response where
  status : Nat
  body : String
deriving DecidableEq

/-- Gin's `c.String(code, format)` without values: the format is written verbatim. -/
def ginString (code : Nat) (format : String) : Response := ⟨code, format⟩

/-- The reply of the upstream server as the handler consumes it: the outcome of
`io.ReadAll(resp.Body)`. -/
structure UpstreamResponse where
  readAll : Except GoError (List UInt8)

/-- The outcomes of the I/O steps of one PUT request: reading the inbound body, and
`client.Do` on the outbound request. -/
structure PutEnv where
  readBody : Except GoError (List UInt8)
  clientDo : Request → Except GoError UpstreamResponse

/-- What one run of the PUT handler does: its response, the lines it logs, and the request it
built and handed to `client.Do`, if it got that far. -/
structure PutResult where
  response : Response
  logs : List LogLine
  outbound : Option Request
deriving DecidableEq

/-- The code `http.StatusOK`. -/
def statusOK : Nat := 200

/-- The code `http.StatusForbidden`. -/
def statusForbidden : Nat := 403

/-- The code `http.StatusInternalServerError`. -/
def statusInternalServerError : Nat := 500

/-- The PUT handler, main.go lines 68-126. -/
def putHandler (config : Config) (env : PutEnv) : PutResult :=
  match env.readBody with
  | .error _ =>
    { response := ginString statusInternalServerError "服务器内部错误", logs := [], outbound := none }
  | .ok body =>
    let url := "https://picupload.weibo.com/interface/upload.php"
    match newRequest "POST" url body with
    | .error _ =>
      { response := ginString statusInternalServerError "服务器内部错误", logs := [],
        outbound := none }
    | .ok req =>
      -- req.URL.Query() of a URL without query string is empty
      let q : Values := []
      let q := Values.add q "cs" (fmtUint (crc32 body))
      let q := Values.add q "ent" "miniblog"
      let req := { req with RawQuery := Values.encode q }
      let req := { req with Header := Header.set req.Header "Content-Type" "image/gif" }
      let req := { req with Header := Header.set req.Header "Cookie" config.Cookie }
      match env.clientDo req with
      | .error err =>
        { response := ginString statusInternalServerError "服务器内部错误",
          logs := [⟨"上传错误: ", some err⟩], outbound := some req }
      | .ok resp =>
        match resp.readAll with
        | .error _ =>
          { response := ginString statusInternalServerError "服务器内部错误", logs := [],
            outbound := some req }
        | .ok respBody =>
          let (result, err) := jsonUnmarshal respBody
          if err ≠ none ∨ result.Pic.Pid = "" then
            { response := ginString statusForbidden "上传微博失败了", logs := [],
              outbound := some req }
          else
            let url := "https://wx3.sinaimg.cn/large/" ++ result.Pic.Pid
            { response := ginString statusOK url, logs := [⟨"上传成功 " ++ url, none⟩],
              outbound := some req }

/-- A header key that the file server of `net/http` writes or deletes. -/
inductive ServeKey where
  | contentType | contentLength | contentRange | contentEncoding | acceptRanges
  | lastModified | etag | cacheControl | location | xContentTypeOptions
deriving DecidableEq

/-- The canonical name of such a key. -/
def ServeKey.name : ServeKey → String
  | .contentType => "Content-Type"
  | .contentLength => "Content-Length"
  | .contentRange => "Content-Range"
  | .contentEncoding => "Content-Encoding"
  | .acceptRanges => "Accept-Ranges"
  | .lastModified => "Last-Modified"
  | .etag => "Etag"
  | .cacheControl => "Cache-Control"
  | .location => "Location"
  | .xContentTypeOptions => "X-Content-Type-Options"

/-- A change that the file server makes to the response headers. -/
inductive HeaderEdit where
  | set (key : ServeKey) (value : String) : HeaderEdit
  | del (key : ServeKey) : HeaderEdit
deriving DecidableEq

/-- Apply one change. -/
def HeaderEdit.apply (h : Header) : HeaderEdit → Header
  | .set k v => Header.set h k.name v
  | .del k => Header.del h k.name

/-- The outcome of `http.ServeFile` for a path: the status and body it writes and the header
changes it makes (for a missing file: 404, the changes of `http.Error`, the text
`404 page not found`). -/
structure FileServe where
  status : Nat
  edits : List HeaderEdit
  body : List UInt8
deriving DecidableEq

/-- The surroundings of the GET handler: `dir`, the directory of the source file `main.go` as
`runtime.Caller(0)` reports it (recorded when the program was built, not the working
directory), `filepath.Join`, and what the file server does for a path. -/
structure GetEnv where
  dir : String
  join : String → String → String
  serveFile : String → FileServe

/-- The response of the GET handler as the server sends it: the status, the header lines
written from the handler's header map, and the body. The lines the server adds on its own
(`Date`, `Content-Length`, `Connection`, `Transfer-Encoding`) have other names and are left
out. -/
structure FileResponse where
  status : Nat
  header : List (String × String)
  body : List UInt8
deriving DecidableEq

/-- Gin's `c.Header(key, value)`: an empty value deletes the key, any other value is set. -/
def ginHeader (h : Header) (key value : String) : Header :=
  if value = "" then Header.del h key else Header.set h key value

/-- The GET handler, main.go lines 129-137, with the response as `net/http` writes it: the
header lines are those of the header map after `c.Header` and the file server. -/
def getHandler (config : Config) (env : GetEnv) : FileResponse :=
  let filePath := env.join env.dir config.ImagePath
  let header := ginHeader [] "Referer" config.Referer
  let served := env.serveFile filePath
  { status := served.status, header := writeHeader (served.edits.foldl HeaderEdit.apply header),
    body := served.body }

/-- What `r.Run(addr)` does: it keeps serving and never returns, or the listener fails for the
given cause and it returns that error. It never returns a nil error (`http.ListenAndServe`
always returns a non-nil error). -/
inductive RunOutcome where
  | serving : RunOutcome
  | failed (cause : String) : RunOutcome
deriving DecidableEq

/-- The surroundings of `main`: `dir`, the directory of the source file `main.go` as
`runtime.Caller(0)` reports it (recorded when the program was built, not the working
directory), `filepath.Join`, the file system, whether gin runs in debug mode (its default,
unless `GIN_MODE` selects another), and the listener. -/
structure World where
  dir : String
  join : String → String → String
  fs : FileSystem
  ginDebug : Bool
  run : String → RunOutcome

/-- What a run of `main` does until it blocks in the listener or ends: the address it passes
to `r.Run`, the line of `log.Fatal` or `log.Fatalf` that ends the process, and what is
written to standard output and to standard error before that line. Gin's start-up lines of
fixed text (mode warning, route table) hold no configuration value and are left out. -/
structure MainResult where
  listenAddr : Option String
  fatal : Option LogLine
  stdout : List String
  stderr : List LogLine
deriving DecidableEq

/-- Gin's `debugPrint` of `Engine.Run`: in debug mode the line
`[GIN-debug] Listening and serving HTTP on <addr>`. -/
def ginBanner (debug : Bool) (addr : String) : List String :=
  if debug then ["[GIN-debug] Listening and serving HTTP on " ++ addr ++ "\n"] else []

/-- Gin's `debugPrintError` of `Engine.Run`: in debug mode the line `[GIN-debug] [ERROR] `
followed by the error. -/
def ginErrorLine (debug : Bool) (err : GoError) : List LogLine :=
  if debug then [⟨"[GIN-debug] [ERROR] ", some err⟩] else []

/-- The function `main` of main.go, with the two handlers registered on the router that
`r.Run` serves. `r.Run` prints its banner, then listens; since it returns only with an error,
the `fmt.Printf` of line 144 is never reached. -/
def main (w : World) : MainResult :=
  let (config, err) := loadConfig w.fs (w.join w.dir "config.json")
  match err with
  | some e =>
    { listenAddr := none, fatal := some ⟨"无法加载配置文件: ", some e⟩, stdout := [], stderr := [] }
  | none =>
    let addr := ":" ++ fmtInt config.Port
    match w.run addr with
    | .serving =>
      { listenAddr := some addr, fatal := none, stdout := ginBanner w.ginDebug addr, stderr := [] }
    | .failed cause =>
      { listenAddr := some addr, fatal := some ⟨"服务器启动失败: ", some (.listen addr cause)⟩,
        stdout := ginBanner w.ginDebug addr,
        stderr := ginErrorLine w.ginDebug (.listen addr cause) }

/-- The outbound request the specification describes for an inbound body: a POST to the upload
endpoint with the body unchanged, the query `cs=<decimal checksum>&ent=miniblog`, and the two
headers. -/
def expectedRequest (config : Config) (body : List UInt8) : Request :=
  { Method := "POST"
    URL := "https://picupload.weibo.com/interface/upload.php"
    RawQuery := "cs=" ++ fmtUint (crc32 body) ++ "&ent=miniblog"
    Header := [("Content-Type", ["image/gif"]), ("Cookie", [config.Cookie])]
    Body := body }

/-- The request of line 78 with the query of lines 85-88 and the headers of lines 91-92. -/
def builtRequest (config : Config) (body : List UInt8) : Request :=
  { Method := "POST"
    URL := "https://picupload.weibo.com/interface/upload.php"
    RawQuery := Values.encode (Values.add (Values.add [] "cs" (fmtUint (crc32 body))) "ent" "miniblog")
    Header := Header.set (Header.set [] "Content-Type" "image/gif") "Cookie" config.Cookie
    Body := body }

/-! ## Sample inputs -/

/-- A configuration with all four fields set. -/
def sampleConfig : Config := ⟨"SUB=secret", "fallback.png", "https://weibo.com/", 8080⟩

/-- An inbound body: the four bytes `GIF8`. -/
def sampleBody : List UInt8 := [71, 73, 70, 56]

/-- A PUT request whose body reads as `sampleBody` and whose upstream call answers with the
given bytes. -/
def replyEnv (reply : List UInt8) : PutEnv :=
  { readBody := .ok sampleBody, clientDo := fun _ => .ok ⟨.ok reply⟩ }

/-- A PUT request whose body cannot be read. -/
def failingReadEnv : PutEnv :=
  { readBody := .error (.os "unexpected EOF"), clientDo := fun _ => .ok ⟨.ok []⟩ }

/-- The upstream reply of the specification's success example. -/
def replyAbc123 : List UInt8 := utf8 "\x7b\"pic\":\x7b\"pid\":\"abc123\"\x7d\x7d"

/-- An upstream reply with an empty identifier. -/
def replyEmptyPid : List UInt8 := utf8 "\x7b\"pic\":\x7b\"pid\":\"\"\x7d\x7d"

/-- An upstream reply that is an empty object. -/
def replyEmptyObject : List UInt8 := utf8 "\x7b\x7d"

/-- An upstream reply that is not JSON. -/
def replyNotJson : List UInt8 := utf8 "<html>502 Bad Gateway</html>"

/-- A configuration document with all four fields. -/
def configDoc8080 : List UInt8 :=
  utf8 ("\x7b\"cookie\":\"SUB=secret\",\"image_path\":\"fallback.png\","
    ++ "\"referer\":\"https://weibo.com/\",\"port\":8080\x7d")

/-- The same document with another port. -/
def configDoc9090 : List UInt8 :=
  utf8 ("\x7b\"cookie\":\"SUB=secret\",\"image_path\":\"fallback.png\","
    ++ "\"referer\":\"https://weibo.com/\",\"port\":9090\x7d")

/-- The same document without the `port` field. -/
def configDocNoPort : List UInt8 :=
  utf8 ("\x7b\"cookie\":\"SUB=secret\",\"image_path\":\"fallback.png\","
    ++ "\"referer\":\"https://weibo.com/\"\x7d")

/-- A world whose `config.json` holds the given bytes and whose listener behaves as given,
with gin in its default debug mode. -/
def worldWith (doc : List UInt8) (run : String → RunOutcome) : World :=
  { dir := "/srv/weibo", join := fun a b => a ++ "/" ++ b, fs := ⟨fun _ => .ok doc⟩,
    ginDebug := true, run := run }

/-- A configuration document without `port`, with the other members in another order, an
unknown member and a repeated `cookie`. -/
def configDocShuffled : List UInt8 :=
  utf8 ("\x7b\"referer\":\"https://weibo.com/\",\"cookie\":\"SUB=old\",\"note\":[1,2],"
    ++ "\"image_path\":\"fallback.png\",\"Cookie\":\"SUB=secret\"\x7d")

/-- A GET request for which the fallback file does not exist: the file server answers 404 with
the header changes of `http.Error`. -/
def missingFileEnv : GetEnv :=
  { dir := "/srv/weibo", join := fun a b => a ++ "/" ++ b
    serveFile := fun _ =>
      { status := 404
        edits := [.del .contentLength, .set .contentType "text/plain; charset=utf-8",
          .set .xContentTypeOptions "nosniff"]
        body := utf8 "404 page not found\n" } }

/-! ## Lemmas on the checksum -/

theorem crcStep_eq_specStep (c : Nat) : crcStep c = specStep c := by
  unfold crcStep specStep neg32 poly
  rw [Nat.and_one_is_mod]
  rcases Nat.mod_two_eq_zero_or_one c with h | h
  · rw [h]; simp
  · rw [h]; simp; decide

theorem crcStep_lt (c : Nat) (h : c < 2 ^ 32) : crcStep c < 2 ^ 32 := by
  rw [crcStep_eq_specStep]
  unfold specStep
  have h1 : c >>> 1 < 2 ^ 32 := by
    rw [Nat.shiftRight_eq_div_pow]; omega
  split
  · exact Nat.xor_lt_two_pow h1 (by decide)
  · exact h1

theorem crcUnstep_crcStep (c : Nat) (h : c < 2 ^ 32) : crcUnstep (crcStep c) = c := by
  rw [crcStep_eq_specStep]
  unfold specStep
  have h1 : c >>> 1 = c / 2 := by rw [Nat.shiftRight_eq_div_pow, Nat.pow_one]
  have h2 : c / 2 < 2 ^ 31 := by omega
  rw [h1]
  split
  · have hb : ((c / 2) ^^^ 0xEDB88320).testBit 31 = true := by
      rw [Nat.testBit_xor, Nat.testBit_lt_two_pow h2]
      decide
    have hge : 2 ^ 31 ≤ (c / 2) ^^^ 0xEDB88320 := Nat.testBit_implies_ge hb
    unfold crcUnstep poly
    rw [if_pos hge, Nat.xor_assoc, Nat.xor_self, Nat.xor_zero]
    omega
  · unfold crcUnstep
    rw [if_neg (by omega)]
    omega

theorem crcStep_iterate_lt (n c : Nat) (h : c < 2 ^ 32) : Nat.iterate crcStep n c < 2 ^ 32 := by
  induction n generalizing c with
  | zero => simpa using h
  | succ k ih =>
    rw [Function.iterate_succ_apply]
    exact ih _ (crcStep_lt c h)

theorem crcStep_iterate_inj (n a b : Nat) (ha : a < 2 ^ 32) (hb : b < 2 ^ 32)
    (h : Nat.iterate crcStep n a = Nat.iterate crcStep n b) : a = b := by
  induction n generalizing a b with
  | zero => simpa using h
  | succ k ih =>
    rw [Function.iterate_succ_apply, Function.iterate_succ_apply] at h
    have h3 := ih _ _ (crcStep_lt a ha) (crcStep_lt b hb) h
    have h4 := congrArg crcUnstep h3
    rwa [crcUnstep_crcStep a ha, crcUnstep_crcStep b hb] at h4

theorem byte_lt (b : UInt8) : b.toNat < 2 ^ 32 := by
  have := b.toNat_lt
  omega

theorem crcByte_lt (r : Nat) (b : UInt8) (h : r < 2 ^ 32) : crcByte r b < 2 ^ 32 :=
  crcStep_iterate_lt 8 _ (Nat.xor_lt_two_pow h (byte_lt b))

theorem crcByte_inj_reg (r s : Nat) (b : UInt8) (hr : r < 2 ^ 32) (hs : s < 2 ^ 32)
    (h : crcByte r b = crcByte s b) : r = s := by
  have h1 := crcStep_iterate_inj 8 _ _ (Nat.xor_lt_two_pow hr (byte_lt b))
    (Nat.xor_lt_two_pow hs (byte_lt b)) h
  have h2 := congrArg (fun x => x ^^^ b.toNat) h1
  simpa [Nat.xor_assoc] using h2

theorem crcByte_inj_byte (r : Nat) (a b : UInt8) (hr : r < 2 ^ 32)
    (h : crcByte r a = crcByte r b) : a = b := by
  have h1 := crcStep_iterate_inj 8 _ _ (Nat.xor_lt_two_pow hr (byte_lt a))
    (Nat.xor_lt_two_pow hr (byte_lt b)) h
  have h2 := congrArg (fun x => r ^^^ x) h1
  simp only [Nat.xor_cancel_left] at h2
  exact UInt8.ext h2

theorem foldl_crcByte_lt (xs : List UInt8) (r : Nat) (h : r < 2 ^ 32) :
    xs.foldl crcByte r < 2 ^ 32 := by
  induction xs generalizing r with
  | nil => simpa using h
  | cons x xs ih => exact ih _ (crcByte_lt r x h)

theorem crc32_lt (buffer : List UInt8) : crc32 buffer < 2 ^ 32 :=
  Nat.xor_lt_two_pow (foldl_crcByte_lt buffer _ (by decide)) (by decide)

theorem foldl_crcByte_inj (xs : List UInt8) (r s : Nat) (hr : r < 2 ^ 32) (hs : s < 2 ^ 32)
    (h : xs.foldl crcByte r = xs.foldl crcByte s) : r = s := by
  induction xs generalizing r s with
  | nil => simpa using h
  | cons x xs ih =>
    exact crcByte_inj_reg r s x hr hs (ih _ _ (crcByte_lt r x hr) (crcByte_lt s x hs) h)

theorem foldl_crcByte_single_diff (xs ys : List UInt8) (r : Nat) (hr : r < 2 ^ 32) (i : Nat)
    (hlen : xs.length = ys.length) (hi : i < xs.length) (hne : xs[i]? ≠ ys[i]?)
    (hrest : ∀ j, j ≠ i → xs[j]? = ys[j]?) :
    xs.foldl crcByte r ≠ ys.foldl crcByte r := by
  induction xs generalizing ys r i with
  | nil => simp at hi
  | cons x xs ih =>
    cases ys with
    | nil => simp at hlen
    | cons y ys =>
      cases i with
      | zero =>
        have hxy : x ≠ y := by simpa using hne
        have htail : xs = ys := by
          apply List.ext_getElem?
          intro j
          simpa using hrest (j + 1) (by omega)
        subst htail
        intro h
        exact hxy (crcByte_inj_byte r x y hr
          (foldl_crcByte_inj xs _ _ (crcByte_lt r x hr) (crcByte_lt r y hr) h))
      | succ k =>
        have hxy : x = y := by simpa using hrest 0 (by omega)
        subst hxy
        simp only [List.foldl_cons]
        apply ih ys (crcByte r x) (crcByte_lt r x hr) k
        · simpa using hlen
        · simpa using hi
        · simpa using hne
        · intro j hj
          simpa using hrest (j + 1) (by omega)

theorem crcByte_eq_specByte (r : Nat) (b : UInt8) : crcByte r b = specByte r b := by
  simp only [crcByte, specByte, Function.iterate_succ, Function.iterate_zero, Function.comp,
    crcStep_eq_specStep, id]

theorem foldl_crcByte_eq_spec (buffer : List UInt8) (r : Nat) :
    (buffer.foldl crcByte r) ^^^ 0xffffffff = specCrc32 buffer r := by
  induction buffer generalizing r with
  | nil => rfl
  | cons b rest ih =>
    simp only [List.foldl_cons, specCrc32]
    rw [ih, crcByte_eq_specByte]

theorem xor_byte_high (r b : Nat) (hb : b < 2 ^ 8) : (r ^^^ b) / 2 ^ 8 = r / 2 ^ 8 := by
  apply Nat.eq_of_testBit_eq
  intro j
  rw [← Nat.shiftRight_eq_div_pow, ← Nat.shiftRight_eq_div_pow, Nat.testBit_shiftRight,
    Nat.testBit_shiftRight, Nat.testBit_xor]
  have hbit : b.testBit (8 + j) = false :=
    Nat.testBit_lt_two_pow (Nat.lt_of_lt_of_le hb (Nat.pow_le_pow_right (by decide) (by omega)))
  rw [hbit, Bool.xor_false]

theorem xor_byte_low (r b : Nat) (hb : b < 2 ^ 8) : (r ^^^ b) % 2 ^ 8 = (r % 2 ^ 8) ^^^ b := by
  apply Nat.eq_of_testBit_eq
  intro j
  rw [Nat.testBit_mod_two_pow, Nat.testBit_xor, Nat.testBit_xor, Nat.testBit_mod_two_pow]
  by_cases hj : j < 8
  · simp [hj]
  · have hbit : b.testBit j = false :=
      Nat.testBit_lt_two_pow (Nat.lt_of_lt_of_le hb (Nat.pow_le_pow_right (by decide) (by omega)))
    simp [hj, hbit]

/-! ## The claims on the checksum -/

/-- C1: for every byte sequence, `crc32` equals the reflected CRC-32 computed bit by bit
(register `0xFFFFFFFF`, per byte an XOR into the register and eight conditional shift/XOR
steps, final XOR with `0xFFFFFFFF`), its value is a 32-bit number, the branch-free step of
the code equals the conditional step for every register value, and the XOR of a byte changes
the low 8 bits of the register only. -/
theorem crc32_eq_bitwise_reference :
    (∀ buffer : List UInt8, crc32 buffer = specCrc32 buffer 0xFFFFFFFF) ∧
    (∀ buffer : List UInt8, crc32 buffer < 2 ^ 32) ∧
    (∀ c : Nat, crcStep c = specStep c) ∧
    (∀ (r : Nat) (b : UInt8), (r ^^^ b.toNat) / 2 ^ 8 = r / 2 ^ 8 ∧
      (r ^^^ b.toNat) % 2 ^ 8 = (r % 2 ^ 8) ^^^ b.toNat) :=
  ⟨fun buffer => foldl_crcByte_eq_spec buffer _, crc32_lt, crcStep_eq_specStep,
    fun r b => ⟨xor_byte_high r _ b.toNat_lt, xor_byte_low r _ b.toNat_lt⟩⟩

/-- C2: `crc32` of the empty sequence is `0x00000000` and `crc32` of the nine ASCII bytes of
`123456789` is `0xCBF43926`. -/
theorem crc32_test_vectors :
    crc32 [] = 0x00000000 ∧
    utf8 "123456789" = [49, 50, 51, 52, 53, 54, 55, 56, 57] ∧
    crc32 (utf8 "123456789") = 0xCBF43926 := by
  decide

/-- C10: two byte sequences of the same length that differ at exactly one index have different
`crc32` values; the per-byte register update is injective on 32-bit registers. -/
theorem crc32_detects_single_byte_change (xs ys : List UInt8) (i : Nat)
    (hlen : xs.length = ys.length) (hi : i < xs.length) (hne : xs[i]? ≠ ys[i]?)
    (hrest : ∀ j, j ≠ i → xs[j]? = ys[j]?) :
    crc32 xs ≠ crc32 ys ∧
    (∀ (b : UInt8) (r s : Nat), r < 2 ^ 32 → s < 2 ^ 32 → crcByte r b = crcByte s b → r = s) := by
  refine ⟨?_, fun b r s hr hs h => crcByte_inj_reg r s b hr hs h⟩
  intro h
  have hfold := foldl_crcByte_single_diff xs ys 0xffffffff (by decide) i hlen hi hne hrest
  apply hfold
  have h2 := congrArg (fun x => x ^^^ 0xffffffff) h
  simpa [crc32, Nat.xor_assoc] using h2

/-- Witness for C10: the sequences `[1, 2, 3]` and `[1, 7, 3]` differ at index 1 only. -/
theorem crc32_detects_single_byte_change_witness :
    crc32 [1, 2, 3] ≠ crc32 [1, 7, 3] :=
  (crc32_detects_single_byte_change [1, 2, 3] [1, 7, 3] 1 rfl (by decide) (by decide)
    (by
      intro j hj
      rcases j with _ | _ | _ | j
      · rfl
      · exact absurd rfl hj
      · rfl
      · rfl)).1

/-! ## Lemmas on `%d` -/

theorem digitChar_toNat (d : Nat) (h : d < 10) : (Char.ofNat (48 + d)).toNat = 48 + d := by
  interval_cases d <;> rfl

theorem decDigits_append (fuel u : Nat) (acc : List Char) :
    decDigits fuel u acc = decDigits fuel u [] ++ acc := by
  induction fuel generalizing u acc with
  | zero => simp [decDigits]
  | succ f ih =>
    unfold decDigits
    split
    · rw [ih (u / 10) (_ :: acc), ih (u / 10) [_]]
      simp
    · simp

theorem decDigits_all_digits (fuel u : Nat) (hu : u ≤ fuel) :
    ∀ c ∈ decDigits fuel u [], 48 ≤ c.toNat ∧ c.toNat ≤ 57 := by
  induction fuel generalizing u with
  | zero =>
    intro c hc
    have h0 : u = 0 := by omega
    subst h0
    simp only [decDigits, List.mem_singleton] at hc
    subst hc
    decide
  | succ f ih =>
    intro c hc
    unfold decDigits at hc
    split at hc
    · rw [decDigits_append] at hc
      rcases List.mem_append.mp hc with h | h
      · exact ih (u / 10) (by omega) c h
      · simp only [List.mem_singleton] at h
        subst h
        rw [digitChar_toNat _ (Nat.mod_lt _ (by decide))]
        omega
    · simp only [List.mem_singleton] at hc
      subst hc
      rw [digitChar_toNat _ (by omega)]
      omega

theorem decimalValue_append_singleton (ds : List Char) (c : Char) :
    decimalValue (ds ++ [c]) = 10 * decimalValue ds + (c.toNat - 48) := by
  simp [decimalValue, List.foldl_append]

theorem decimalValue_decDigits (fuel u : Nat) (hu : u ≤ fuel) :
    decimalValue (decDigits fuel u []) = u := by
  induction fuel generalizing u with
  | zero =>
    have h0 : u = 0 := by omega
    subst h0
    decide
  | succ f ih =>
    unfold decDigits
    split
    · rw [decDigits_append, decimalValue_append_singleton, ih (u / 10) (by omega),
        digitChar_toNat _ (Nat.mod_lt _ (by decide))]
      omega
    · have hlt : u < 10 := by omega
      simp only [decimalValue, List.foldl_cons, List.foldl_nil]
      rw [digitChar_toNat _ hlt]
      omega

theorem decDigits_head (fuel u : Nat) (hu : u ≤ fuel) (hpos : 0 < u) :
    ∃ c rest, decDigits fuel u [] = c :: rest ∧ c.toNat ≠ 48 := by
  induction fuel generalizing u with
  | zero => omega
  | succ f ih =>
    unfold decDigits
    split
    · obtain ⟨c, rest, h1, h2⟩ := ih (u / 10) (by omega) (by omega)
      refine ⟨c, rest ++ [Char.ofNat (48 + u % 10)], ?_, h2⟩
      rw [decDigits_append, h1]
      rfl
    · refine ⟨_, [], rfl, ?_⟩
      rw [digitChar_toNat _ (by omega)]
      omega

theorem escapeChar_digit (c : Char) (h : 48 ≤ c.toNat ∧ c.toNat ≤ 57) : escapeChar c = [c] := by
  have hu : isUnreserved c = true := by
    simp only [isUnreserved, Bool.or_eq_true, Bool.and_eq_true, decide_eq_true_eq]
    exact Or.inl (Or.inl (Or.inl (Or.inl (Or.inl (Or.inl h)))))
  simp [escapeChar, hu]

theorem flatMap_escapeChar_digits (ds : List Char)
    (h : ∀ c ∈ ds, 48 ≤ c.toNat ∧ c.toNat ≤ 57) : ds.flatMap escapeChar = ds := by
  induction ds with
  | nil => rfl
  | cons c rest ih =>
    rw [List.flatMap_cons, escapeChar_digit c (h c (List.mem_cons_self _ _)),
      ih (fun x hx => h x (List.mem_cons_of_mem _ hx))]
    rfl

theorem queryEscape_fmtUint (u : Nat) : queryEscape (fmtUint u) = fmtUint u := by
  unfold queryEscape fmtUint
  rw [flatMap_escapeChar_digits _ (decDigits_all_digits u u (Nat.le_refl u))]

/-! ## Lemmas on the PUT handler -/

theorem encode_cs_ent (x : String) :
    Values.encode (Values.add (Values.add [] "cs" x) "ent" "miniblog")
      = "cs=" ++ queryEscape x ++ "&" ++ "ent=miniblog" := rfl

theorem builtRequest_eq (config : Config) (body : List UInt8) :
    builtRequest config body = expectedRequest config body := by
  unfold builtRequest expectedRequest
  congr 1
  rw [encode_cs_ent, queryEscape_fmtUint, String.append_assoc]
  rfl

theorem putHandler_readError (config : Config) (env : PutEnv) (err : GoError)
    (h : env.readBody = .error err) :
    putHandler config env
      = { response := ⟨500, "服务器内部错误"⟩, logs := [], outbound := none } := by
  unfold putHandler
  rw [h]
  rfl

theorem putHandler_sendError (config : Config) (env : PutEnv) (body : List UInt8) (err : GoError)
    (h : env.readBody = .ok body) (hdo : env.clientDo (expectedRequest config body) = .error err) :
    putHandler config env
      = { response := ⟨500, "服务器内部错误"⟩, logs := [⟨"上传错误: ", some err⟩],
          outbound := some (expectedRequest config body) } := by
  rw [← builtRequest_eq] at hdo ⊢
  unfold putHandler
  rw [h]
  show (match env.clientDo (builtRequest config body) with
    | .error err => _
    | .ok resp => _) = _
  rw [hdo]
  rfl

theorem putHandler_replyReadError (config : Config) (env : PutEnv) (body : List UInt8)
    (resp : UpstreamResponse) (err : GoError)
    (h : env.readBody = .ok body) (hdo : env.clientDo (expectedRequest config body) = .ok resp)
    (hread : resp.readAll = .error err) :
    putHandler config env
      = { response := ⟨500, "服务器内部错误"⟩, logs := [],
          outbound := some (expectedRequest config body) } := by
  rw [← builtRequest_eq] at hdo ⊢
  unfold putHandler
  rw [h]
  show (match env.clientDo (builtRequest config body) with
    | .error err => _
    | .ok resp => _) = _
  rw [hdo]
  simp only [hread]
  rfl

theorem putHandler_reply (config : Config) (env : PutEnv) (body : List UInt8)
    (resp : UpstreamResponse) (respBody : List UInt8)
    (h : env.readBody = .ok body) (hdo : env.clientDo (expectedRequest config body) = .ok resp)
    (hread : resp.readAll = .ok respBody) :
    putHandler config env
      = if (jsonUnmarshal respBody).2 ≠ none ∨ (jsonUnmarshal respBody).1.Pic.Pid = "" then
          { response := ⟨403, "上传微博失败了"⟩, logs := [],
            outbound := some (expectedRequest config body) }
        else
          { response := ⟨200, "https://wx3.sinaimg.cn/large/" ++ (jsonUnmarshal respBody).1.Pic.Pid⟩,
            logs := [⟨"上传成功 " ++ ("https://wx3.sinaimg.cn/large/"
              ++ (jsonUnmarshal respBody).1.Pic.Pid), none⟩],
            outbound := some (expectedRequest config body) } := by
  rw [← builtRequest_eq] at hdo ⊢
  unfold putHandler
  rw [h]
  show (match env.clientDo (builtRequest config body) with
    | .error err => _
    | .ok resp => _) = _
  rw [hdo]
  simp only [hread]
  rfl

/-! ## The claims on the PUT handler -/

/-- C3: when the inbound body is read, the upstream call succeeds and its body decodes as JSON
with a non-empty string `P` at `pic.pid`, the PUT handler responds with status 200 and the body
`https://wx3.sinaimg.cn/large/` followed by `P` and nothing else; for the upstream body
`{"pic":{"pid":"abc123"}}` that is `https://wx3.sinaimg.cn/large/abc123`. -/
theorem put_success_url (config : Config) (env : PutEnv) (body : List UInt8)
    (resp : UpstreamResponse) (hbody : env.readBody = .ok body)
    (hdo : env.clientDo (expectedRequest config body) = .ok resp) :
    (∀ (respBody : List UInt8) (P : String), resp.readAll = .ok respBody →
      jsonUnmarshal respBody = (⟨⟨P⟩⟩, none) → P ≠ "" →
      (putHandler config env).response = ⟨200, "https://wx3.sinaimg.cn/large/" ++ P⟩) ∧
    (resp.readAll = .ok replyAbc123 →
      (putHandler config env).response = ⟨200, "https://wx3.sinaimg.cn/large/abc123"⟩) := by
  have key : ∀ (respBody : List UInt8) (P : String), resp.readAll = .ok respBody →
      jsonUnmarshal respBody = (⟨⟨P⟩⟩, none) → P ≠ "" →
      (putHandler config env).response = ⟨200, "https://wx3.sinaimg.cn/large/" ++ P⟩ := by
    intro respBody P hread hdec hP
    rw [putHandler_reply config env body resp respBody hbody hdo hread, hdec]
    simp [hP]
  refine ⟨key, fun hread => ?_⟩
  exact key replyAbc123 "abc123" hread (by decide) (by decide)

/-- Witness for C3: the sample request with the upstream reply `{"pic":{"pid":"abc123"}}`. -/
theorem put_success_url_witness :
    (putHandler sampleConfig (replyEnv replyAbc123)).response
      = ⟨200, "https://wx3.sinaimg.cn/large/abc123"⟩ :=
  (put_success_url sampleConfig (replyEnv replyAbc123) sampleBody ⟨.ok replyAbc123⟩ rfl rfl).1
    replyAbc123 "abc123" rfl (by decide) (by decide)

/-- C4: when the upstream body was read but fails to decode, or decodes with an empty
`pic.pid`, the PUT handler responds 403 with the fixed message (so neither 500 nor 200);
status 200 is produced only when every step succeeded, decoding included, and `pic.pid` is
non-empty. The replies `{"pic":{"pid":""}}` and `{}` decode with an empty identifier and a
non-JSON text fails to decode. -/
theorem put_decode_failure_forbidden (config : Config) (env : PutEnv) :
    (∀ (body : List UInt8) (resp : UpstreamResponse) (respBody : List UInt8),
      env.readBody = .ok body → env.clientDo (expectedRequest config body) = .ok resp →
      resp.readAll = .ok respBody →
      ((jsonUnmarshal respBody).2 ≠ none ∨ (jsonUnmarshal respBody).1.Pic.Pid = "") →
      (putHandler config env).response = ⟨403, "上传微博失败了"⟩) ∧
    ((putHandler config env).response.status = 200 →
      ∃ (body : List UInt8) (resp : UpstreamResponse) (respBody : List UInt8),
        env.readBody = .ok body ∧ env.clientDo (expectedRequest config body) = .ok resp ∧
        resp.readAll = .ok respBody ∧ (jsonUnmarshal respBody).2 = none ∧
        (jsonUnmarshal respBody).1.Pic.Pid ≠ "") ∧
    (jsonUnmarshal replyEmptyPid = (⟨⟨""⟩⟩, none) ∧ jsonUnmarshal replyEmptyObject = (⟨⟨""⟩⟩, none) ∧
      jsonUnmarshal replyNotJson = (⟨⟨""⟩⟩, some .jsonMalformed)) := by
  refine ⟨?_, ?_, by decide⟩
  · intro body resp respBody hbody hdo hread hfail
    rw [putHandler_reply config env body resp respBody hbody hdo hread, if_pos hfail]
  · intro hstatus
    cases hbody : env.readBody with
    | error err =>
      rw [putHandler_readError config env err hbody] at hstatus
      simp at hstatus
    | ok body =>
      cases hdo : env.clientDo (expectedRequest config body) with
      | error err =>
        rw [putHandler_sendError config env body err hbody hdo] at hstatus
        simp at hstatus
      | ok resp =>
        cases hread : resp.readAll with
        | error err =>
          rw [putHandler_replyReadError config env body resp err hbody hdo hread] at hstatus
          simp at hstatus
        | ok respBody =>
          rw [putHandler_reply config env body resp respBody hbody hdo hread] at hstatus
          by_cases hfail : (jsonUnmarshal respBody).2 ≠ none ∨ (jsonUnmarshal respBody).1.Pic.Pid = ""
          · rw [if_pos hfail] at hstatus
            simp at hstatus
          · refine ⟨body, resp, respBody, rfl, hdo, hread, ?_, ?_⟩
            · by_contra hne
              exact hfail (Or.inl hne)
            · intro hempty
              exact hfail (Or.inr hempty)

/-- Witness for C4: the sample request with the upstream reply `{"pic":{"pid":""}}` is answered
with 403. -/
theorem put_decode_failure_forbidden_witness :
    (putHandler sampleConfig (replyEnv replyEmptyPid)).response = ⟨403, "上传微博失败了"⟩ :=
  (put_decode_failure_forbidden sampleConfig (replyEnv replyEmptyPid)).1
    sampleBody ⟨.ok replyEmptyPid⟩ replyEmptyPid rfl rfl rfl (Or.inr (by decide))

/-- C5: when reading the inbound request body fails, the PUT handler responds 500 with the
generic message, logs nothing and builds or sends no upstream request; the outcome does not
depend on what the upstream call would have done. -/
theorem put_read_failure (config : Config) (env : PutEnv) (err : GoError)
    (h : env.readBody = .error err) :
    putHandler config env
        = { response := ⟨500, "服务器内部错误"⟩, logs := [], outbound := none } ∧
      ∀ clientDo, putHandler config { env with clientDo := clientDo } = putHandler config env := by
  refine ⟨putHandler_readError config env err h, fun clientDo => ?_⟩
  rw [putHandler_readError config env err h,
    putHandler_readError config { env with clientDo := clientDo } err h]

/-- Witness for C5: a request whose body read ends in an unexpected EOF. -/
theorem put_read_failure_witness :
    putHandler sampleConfig failingReadEnv
      = { response := ⟨500, "服务器内部错误"⟩, logs := [], outbound := none } :=
  (put_read_failure sampleConfig failingReadEnv (.os "unexpected EOF") rfl).1

theorem putHandler_outbound (config : Config) (env : PutEnv) (body : List UInt8)
    (h : env.readBody = .ok body) :
    (putHandler config env).outbound = some (expectedRequest config body) := by
  cases hdo : env.clientDo (expectedRequest config body) with
  | error err => rw [putHandler_sendError config env body err h hdo]
  | ok resp =>
    cases hread : resp.readAll with
    | error err => rw [putHandler_replyReadError config env body resp err h hdo hread]
    | ok respBody =>
      rw [putHandler_reply config env body resp respBody h hdo hread]
      split <;> rfl

theorem fmtUint_head_zero_iff (u : Nat) :
    (fmtUint u).data.head?.map Char.toNat = some 48 ↔ u = 0 := by
  constructor
  · intro h
    by_contra hne
    obtain ⟨c, rest, h1, h2⟩ := decDigits_head u u (Nat.le_refl u) (Nat.pos_of_ne_zero hne)
    simp only [fmtUint, h1, List.head?_cons, Option.map_some', Option.some.injEq] at h
    exact h2 h
  · intro h
    subst h
    decide

/-- C6: for every inbound body that is read, the request the PUT handler builds and sends is a
POST to `https://picupload.weibo.com/interface/upload.php` with the body unchanged, the raw
query `cs=<d>&ent=miniblog` (the encoding of exactly the two parameters `cs` and `ent`), where
`d` is `crc32` of the body in unsigned decimal (digits only, no leading zero, value below
`2 ^ 32`), and the headers `Content-Type: image/gif` and `Cookie:` the configured cookie. -/
theorem put_outbound_request (config : Config) (env : PutEnv) (body : List UInt8)
    (h : env.readBody = .ok body) :
    (putHandler config env).outbound = some
        { Method := "POST"
          URL := "https://picupload.weibo.com/interface/upload.php"
          RawQuery := "cs=" ++ fmtUint (crc32 body) ++ "&ent=miniblog"
          Header := [("Content-Type", ["image/gif"]), ("Cookie", [config.Cookie])]
          Body := body } ∧
      "cs=" ++ fmtUint (crc32 body) ++ "&ent=miniblog"
        = Values.encode [("cs", [fmtUint (crc32 body)]), ("ent", ["miniblog"])] ∧
      crc32 body < 2 ^ 32 ∧
      (∀ c ∈ (fmtUint (crc32 body)).data, 48 ≤ c.toNat ∧ c.toNat ≤ 57) ∧
      decimalValue (fmtUint (crc32 body)).data = crc32 body ∧
      ((fmtUint (crc32 body)).data.head?.map Char.toNat = some 48 ↔ crc32 body = 0) ∧
      Header.get [("Content-Type", ["image/gif"]), ("Cookie", [config.Cookie])] "Content-Type"
        = "image/gif" ∧
      Header.get [("Content-Type", ["image/gif"]), ("Cookie", [config.Cookie])] "Cookie"
        = config.Cookie := by
  refine ⟨putHandler_outbound config env body h, ?_, crc32_lt body,
    decDigits_all_digits _ _ (Nat.le_refl _), decimalValue_decDigits _ _ (Nat.le_refl _),
    fmtUint_head_zero_iff _, rfl, rfl⟩
  have henc := encode_cs_ent (fmtUint (crc32 body))
  rw [queryEscape_fmtUint, String.append_assoc] at henc
  exact henc.symm

/-- Witness for C6: the sample request, whose body `GIF8` has checksum 3605879242. -/
theorem put_outbound_request_witness :
    (putHandler sampleConfig (replyEnv replyAbc123)).outbound = some
      { Method := "POST"
        URL := "https://picupload.weibo.com/interface/upload.php"
        RawQuery := "cs=3605879242&ent=miniblog"
        Header := [("Content-Type", ["image/gif"]), ("Cookie", ["SUB=secret"])]
        Body := [71, 73, 70, 56] } :=
  (put_outbound_request sampleConfig (replyEnv replyAbc123) sampleBody rfl).1.trans (by decide)

/-! ## The claims on what depends on the configuration -/

theorem putHandler_response_logs_congr (c1 c2 : Config) (env1 env2 : PutEnv)
    (hbody : env1.readBody = env2.readBody)
    (hdo : ∀ body, env1.readBody = .ok body →
      env1.clientDo (expectedRequest c1 body) = env2.clientDo (expectedRequest c2 body)) :
    (putHandler c1 env1).response = (putHandler c2 env2).response ∧
      (putHandler c1 env1).logs = (putHandler c2 env2).logs := by
  cases h1 : env1.readBody with
  | error err =>
    rw [putHandler_readError c1 env1 err h1, putHandler_readError c2 env2 err (hbody ▸ h1)]
    exact ⟨rfl, rfl⟩
  | ok body =>
    have h2 : env2.readBody = .ok body := hbody ▸ h1
    have hsame := hdo body h1
    cases hd : env1.clientDo (expectedRequest c1 body) with
    | error err =>
      rw [putHandler_sendError c1 env1 body err h1 hd,
        putHandler_sendError c2 env2 body err h2 (hsame ▸ hd)]
      exact ⟨rfl, rfl⟩
    | ok resp =>
      have hd2 : env2.clientDo (expectedRequest c2 body) = .ok resp := hsame ▸ hd
      cases hr : resp.readAll with
      | error err =>
        rw [putHandler_replyReadError c1 env1 body resp err h1 hd hr,
          putHandler_replyReadError c2 env2 body resp err h2 hd2 hr]
        exact ⟨rfl, rfl⟩
      | ok respBody =>
        rw [putHandler_reply c1 env1 body resp respBody h1 hd hr,
          putHandler_reply c2 env2 body resp respBody h2 hd2 hr]
        split <;> exact ⟨rfl, rfl⟩

theorem main_of_loaded (w : World) (config : Config)
    (hload : loadConfig w.fs (w.join w.dir "config.json") = (config, none)) :
    main w =
      match w.run (":" ++ fmtInt config.Port) with
      | .serving =>
        { listenAddr := some (":" ++ fmtInt config.Port), fatal := none,
          stdout := ginBanner w.ginDebug (":" ++ fmtInt config.Port), stderr := [] }
      | .failed cause =>
        { listenAddr := some (":" ++ fmtInt config.Port),
          fatal := some ⟨"服务器启动失败: ", some (.listen (":" ++ fmtInt config.Port) cause)⟩,
          stdout := ginBanner w.ginDebug (":" ++ fmtInt config.Port),
          stderr := ginErrorLine w.ginDebug (.listen (":" ++ fmtInt config.Port) cause) } := by
  unfold main
  rw [hload]

theorem main_stdout_of_loaded (w : World) (config : Config)
    (hload : loadConfig w.fs (w.join w.dir "config.json") = (config, none)) :
    (main w).stdout = ginBanner w.ginDebug (":" ++ fmtInt config.Port) := by
  rw [main_of_loaded w config hload]
  split <;> rfl

/-- C7, counterexample: with a configuration whose port is 8080 (or 9090) and gin in its
default debug mode, the console output of the program contains the port: `r.Run` prints
`Listening and serving HTTP on :8080`, and when the listener fails the line of `log.Fatal`
carries the bind error, which names the address `:8080`. -/
theorem main_console_shows_port :
    loadConfig (worldWith configDoc8080 (fun _ => .serving)).fs "/srv/weibo/config.json"
        = (sampleConfig, none) ∧
      (main (worldWith configDoc8080 (fun _ => .serving))).stdout
        = ["[GIN-debug] Listening and serving HTTP on :8080\n"] ∧
      (main (worldWith configDoc9090 (fun _ => .serving))).stdout
        = ["[GIN-debug] Listening and serving HTTP on :9090\n"] ∧
      (main (worldWith configDoc8080 (fun _ => .failed "bind: address already in use"))).fatal
        = some ⟨"服务器启动失败: ", some (.listen ":8080" "bind: address already in use")⟩ := by
  decide

/-- C7, amended: for two configurations that differ only in cookie and port, the same inbound
request and the same outcomes of the I/O steps, the PUT handler gives the same response and
logs the same lines and the GET handler gives the same response; two runs of `main` whose
configurations differ only in the cookie log and print the same. The port does reach the
console: in gin's debug mode `r.Run` prints `Listening and serving HTTP on :<port>`, and when
the listener fails the line of `log.Fatal` carries the bind error for the address `:<port>`. -/
theorem handlers_independent_of_cookie_and_port (c1 c2 : Config)
    (hImage : c1.ImagePath = c2.ImagePath) (hReferer : c1.Referer = c2.Referer) :
    (∀ env1 env2 : PutEnv, env1.readBody = env2.readBody →
      (∀ body, env1.readBody = .ok body →
        env1.clientDo (expectedRequest c1 body) = env2.clientDo (expectedRequest c2 body)) →
      (putHandler c1 env1).response = (putHandler c2 env2).response ∧
        (putHandler c1 env1).logs = (putHandler c2 env2).logs) ∧
    (∀ env : GetEnv, getHandler c1 env = getHandler c2 env) ∧
    (∀ w1 w2 : World, loadConfig w1.fs (w1.join w1.dir "config.json") = (c1, none) →
      loadConfig w2.fs (w2.join w2.dir "config.json") = (c2, none) →
      c1.Port = c2.Port → w1.run = w2.run → w1.ginDebug = w2.ginDebug → main w1 = main w2) ∧
    (∀ w : World, loadConfig w.fs (w.join w.dir "config.json") = (c1, none) →
      ((main w).listenAddr = some (":" ++ fmtInt c1.Port) ∧
        (w.ginDebug = true → (main w).stdout
          = ["[GIN-debug] Listening and serving HTTP on " ++ (":" ++ fmtInt c1.Port) ++ "\n"]) ∧
        (∀ cause, w.run (":" ++ fmtInt c1.Port) = .failed cause → (main w).fatal
          = some ⟨"服务器启动失败: ", some (.listen (":" ++ fmtInt c1.Port) cause)⟩))) := by
  refine ⟨fun env1 env2 hbody hdo => putHandler_response_logs_congr c1 c2 env1 env2 hbody hdo,
    fun env => ?_, fun w1 w2 h1 h2 hport hrun hdebug => ?_, fun w hload => ⟨?_, ?_, ?_⟩⟩
  · unfold getHandler
    rw [hImage, hReferer]
  · rw [main_of_loaded w1 c1 h1, main_of_loaded w2 c2 h2, hport, hrun, hdebug]
  · rw [main_of_loaded w c1 hload]
    split <;> rfl
  · intro hdebug
    rw [main_stdout_of_loaded w c1 hload, hdebug]
    rfl
  · intro cause hrun
    rw [main_of_loaded w c1 hload, hrun]

/-- Witness for C7: the sample configuration and one with another cookie and port, on the same
request and upstream reply. -/
theorem handlers_independent_of_cookie_and_port_witness :
    (putHandler sampleConfig (replyEnv replyAbc123)).response
        = (putHandler { sampleConfig with Cookie := "SUB=other", Port := 9090 }
            (replyEnv replyAbc123)).response ∧
      (putHandler sampleConfig (replyEnv replyAbc123)).logs
        = (putHandler { sampleConfig with Cookie := "SUB=other", Port := 9090 }
            (replyEnv replyAbc123)).logs :=
  (handlers_independent_of_cookie_and_port sampleConfig
    { sampleConfig with Cookie := "SUB=other", Port := 9090 } rfl rfl).1
    (replyEnv replyAbc123) (replyEnv replyAbc123) rfl (fun _ _ => rfl)

/-! ## The claim on the GET handler -/

theorem serveKey_canonical (k : ServeKey) : canonicalMIMEHeaderKey k.name = k.name := by
  cases k <;> decide

theorem serveKey_ne_referer (k : ServeKey) : k.name ≠ "Referer" := by
  cases k <;> decide

theorem referer_canonical : canonicalMIMEHeaderKey "Referer" = "Referer" := by decide

theorem filter_del_other (h : Header) (k r : String) (hk : k ≠ r) :
    (h.filter (fun e => e.1 != k)).filter (fun e => e.1 == r) = h.filter (fun e => e.1 == r) := by
  induction h with
  | nil => rfl
  | cons e rest ih =>
    by_cases he : e.1 = r
    · have hne : (e.1 != k) = true := by
        rw [he]
        simpa using fun h => hk h.symm
      have hb : (e.1 == r) = true := by simpa using he
      simp only [List.filter_cons, hne, if_true, hb]
      rw [ih]
    · have hfalse : (e.1 == r) = false := by simpa using he
      by_cases hkeep : (e.1 != k) = true
      · simp only [List.filter_cons, hkeep, if_true, hfalse]
        exact ih
      · simp only [List.filter_cons, hkeep, if_false, hfalse]
        exact ih

theorem referer_entries_edit (h : Header) (e : HeaderEdit) :
    (e.apply h).filter (fun x => x.1 == "Referer") = h.filter (fun x => x.1 == "Referer") := by
  cases e with
  | set k v =>
    have hfalse : (k.name == "Referer") = false := by simpa using serveKey_ne_referer k
    show (Header.set h k.name v).filter (fun x => x.1 == "Referer") = _
    unfold Header.set Header.del
    rw [serveKey_canonical, List.filter_append,
      filter_del_other h k.name "Referer" (serveKey_ne_referer k)]
    simp [List.filter_cons, hfalse]
  | del k =>
    show (Header.del h k.name).filter (fun x => x.1 == "Referer") = _
    unfold Header.del
    rw [serveKey_canonical, filter_del_other h k.name "Referer" (serveKey_ne_referer k)]

theorem referer_entries_edits (edits : List HeaderEdit) (h : Header) :
    (edits.foldl HeaderEdit.apply h).filter (fun x => x.1 == "Referer")
      = h.filter (fun x => x.1 == "Referer") := by
  induction edits generalizing h with
  | nil => rfl
  | cons e rest ih => rw [List.foldl_cons, ih, referer_entries_edit]

theorem referer_entries_ginHeader (r : String) :
    (ginHeader [] "Referer" r).filter (fun x => x.1 == "Referer")
      = if r = "" then [] else [("Referer", [r])] := by
  unfold ginHeader
  by_cases hr : r = ""
  · rw [if_pos hr, if_pos hr]
    rfl
  · rw [if_neg hr, if_neg hr]
    unfold Header.set Header.del
    rw [referer_canonical]
    rfl

theorem insertSorted_perm (x : String × List String) (l : List (String × List String)) :
    (insertSorted x l).Perm (x :: l) := by
  induction l with
  | nil => exact List.Perm.refl _
  | cons e rest ih =>
    unfold insertSorted
    split
    · exact List.Perm.refl _
    · exact (List.Perm.cons e ih).trans (List.Perm.swap x e rest)

theorem sortByKey_perm (v : Values) : (sortByKey v).Perm v := by
  induction v with
  | nil => exact List.Perm.refl _
  | cons x rest ih =>
    unfold sortByKey
    rw [List.foldr_cons]
    exact (insertSorted_perm x _).trans (List.Perm.cons x ih)

theorem lineValues_lines_of_key (key : String) (vals : List String) :
    lineValues (vals.map (fun v => (key, wireValue v))) key = vals.map wireValue := by
  induction vals with
  | nil => rfl
  | cons v rest ih =>
    unfold lineValues at ih ⊢
    simp only [List.map_cons, List.filter_cons, beq_self_eq_true, if_true]
    rw [ih]

theorem lineValues_lines_of_other (key r : String) (vals : List String) (h : (key == r) = false) :
    lineValues (vals.map (fun v => (key, wireValue v))) r = [] := by
  induction vals with
  | nil => rfl
  | cons v rest ih =>
    unfold lineValues at ih ⊢
    simp only [List.map_cons, List.filter_cons, h]
    exact ih

theorem lineValues_append (a b : List (String × String)) (key : String) :
    lineValues (a ++ b) key = lineValues a key ++ lineValues b key := by
  unfold lineValues
  rw [List.filter_append, List.map_append]

theorem lineValues_written (s : Header) :
    lineValues ((s.filter (fun e => validHeaderFieldName e.1)).flatMap
        (fun e => e.2.map (fun v => (e.1, wireValue v)))) "Referer"
      = (s.filter (fun e => e.1 == "Referer")).flatMap (fun e => e.2.map wireValue) := by
  induction s with
  | nil => rfl
  | cons e rest ih =>
    by_cases he : e.1 = "Referer"
    · have hb : (e.1 == "Referer") = true := by simpa using he
      have hvalid : validHeaderFieldName e.1 = true := by
        rw [he]
        decide
      simp only [List.filter_cons, hvalid, if_true, hb, List.flatMap_cons]
      rw [lineValues_append, ih]
      congr 1
      have hkey := lineValues_lines_of_key e.1 e.2
      rw [he] at hkey ⊢
      exact hkey
    · have hb : (e.1 == "Referer") = false := by simpa using he
      by_cases hvalid : validHeaderFieldName e.1 = true
      · simp only [List.filter_cons, hvalid, if_true, hb, List.flatMap_cons]
        rw [lineValues_append, ih, lineValues_lines_of_other e.1 "Referer" e.2 hb]
        rfl
      · simp only [List.filter_cons, hvalid, if_false, hb]
        exact ih

theorem lineValues_writeHeader (h : Header) (entries : List (String × List String))
    (hf : h.filter (fun e => e.1 == "Referer") = entries) (hlen : entries.length ≤ 1) :
    lineValues (writeHeader h) "Referer" = entries.flatMap (fun e => e.2.map wireValue) := by
  unfold writeHeader
  rw [lineValues_written]
  have hperm : ((sortByKey h).filter (fun e => e.1 == "Referer")).Perm entries := by
    rw [← hf]
    exact (sortByKey_perm h).filter _
  have heq : (sortByKey h).filter (fun e => e.1 == "Referer") = entries := by
    match entries, hlen, hperm with
    | [], _, hp => exact List.Perm.eq_nil hp
    | [x], _, hp => exact List.perm_singleton.mp hp
    | _ :: _ :: _, hl, _ => simp at hl
  rw [heq]

theorem dropWhile_of_head (p : Char → Bool) (l : List Char)
    (h : (match l.head? with
      | some c => !p c
      | none => true) = true) : l.dropWhile p = l := by
  cases l with
  | nil => rfl
  | cons c rest =>
    have hc : p c = false := by simpa using h
    simp [List.dropWhile, hc]

theorem wireValue_of_clean (v : String) (h : cleanValue v = true) : wireValue v = v := by
  unfold cleanValue at h
  simp only [Bool.and_eq_true] at h
  obtain ⟨⟨hall, hhead⟩, hlast⟩ := h
  have hmap : v.data.map newlineToSpace = v.data := by
    have hid : ∀ c ∈ v.data, newlineToSpace c = c := by
      intro c hc
      have hcn := List.all_eq_true.mp hall c hc
      have hfalse : (c.toNat == 10 || c.toNat == 13) = false := by simpa using hcn
      unfold newlineToSpace
      rw [hfalse]
      rfl
    calc v.data.map newlineToSpace = v.data.map id := List.map_congr_left hid
      _ = v.data := List.map_id _
  unfold wireValue trimString
  rw [hmap, dropWhile_of_head isASCIISpace v.data hhead,
    dropWhile_of_head isASCIISpace v.data.reverse hlast, List.reverse_reverse]

/-- C8, counterexample: with an empty configured referer the response of GET / carries no
`Referer` header at all, and with a referer that is one blank it carries a `Referer` header
with an empty value; both on the not-found path. -/
theorem get_empty_referer_no_header :
    (getHandler { sampleConfig with Referer := "" } missingFileEnv).status = 404 ∧
      lineValues (getHandler { sampleConfig with Referer := "" } missingFileEnv).header "Referer"
        = [] ∧
      lineValues (getHandler { sampleConfig with Referer := " " } missingFileEnv).header "Referer"
        = [""] := by
  decide

/-- C8, amended: for every configuration and whatever the file server does (file found or
not), the response of GET / carries no `Referer` header when the configured referer is empty,
and otherwise exactly one, whose value is the configured referer as `net/http` writes it: line
breaks replaced by blanks, white space at both ends cut. That value is the configured referer
itself when it has no line break and no blank or tab at either end. -/
theorem get_referer_header (config : Config) (env : GetEnv) :
    lineValues (getHandler config env).header "Referer"
        = (if config.Referer = "" then [] else [wireValue config.Referer]) ∧
      (cleanValue config.Referer = true → config.Referer ≠ "" →
        lineValues (getHandler config env).header "Referer" = [config.Referer]) := by
  have hentries := referer_entries_edits (env.serveFile (env.join env.dir config.ImagePath)).edits
    (ginHeader [] "Referer" config.Referer)
  rw [referer_entries_ginHeader] at hentries
  have hv : lineValues (getHandler config env).header "Referer"
      = (if config.Referer = "" then [] else [wireValue config.Referer]) := by
    unfold getHandler
    simp only []
    rw [lineValues_writeHeader _ _ hentries (by split <;> simp)]
    split <;> rfl
  refine ⟨hv, fun hclean hne => ?_⟩
  rw [hv, if_neg hne, wireValue_of_clean _ hclean]

/-- Witness for C8: the sample configuration, whose referer `https://weibo.com/` is sent as it
is, on the not-found path. -/
theorem get_referer_header_witness :
    lineValues (getHandler sampleConfig missingFileEnv).header "Referer"
      = ["https://weibo.com/"] :=
  (get_referer_header sampleConfig missingFileEnv).2 (by decide) (by decide)

/-! ## The claim on a configuration without port -/

theorem parseJSON_some_nonblank (doc : List UInt8) (p : JValue × List UInt8)
    (h : parseJSON doc = some p) : ∃ c rest, skipSpace doc = c :: rest := by
  cases hs : skipSpace doc with
  | nil =>
    unfold parseJSON at h
    rw [show 2 * doc.length + 2 = (2 * doc.length + 1) + 1 from rfl] at h
    unfold parseValue at h
    simp [hs] at h
  | cons c rest => exact ⟨c, rest, rfl⟩

theorem decoderDecode_of_parse (doc rest : List UInt8) (v : JValue) (config : Config)
    (h : parseJSON doc = some (v, rest)) : decoderDecode doc config = decodeConfig config v := by
  obtain ⟨c, tail, hs⟩ := parseJSON_some_nonblank doc _ h
  unfold decoderDecode
  rw [hs]
  simp only [h]

theorem storeString_string (field cur : String) (saved : Option GoError) (s : String) :
    storeString field cur saved (.string s) = (s, saved) := rfl

theorem givenString_snoc (field : String) (l : List (String × JValue)) (m : String × JValue) :
    givenString field (l ++ [m])
      = if findField configFields m.1 = some field then
          (match m.2 with
            | .string s => s
            | _ => "")
        else givenString field l := by
  unfold givenString
  rw [List.reverse_append, List.reverse_singleton, List.singleton_append, List.find?_cons]
  by_cases h : findField configFields m.1 = some field
  · have hb : (findField configFields m.1 == some field) = true := by simpa using h
    rw [if_pos h]
    simp only [hb]
    obtain ⟨k, v⟩ := m
    cases v <;> rfl
  · have hb : (findField configFields m.1 == some field) = false := by simpa using h
    rw [if_neg h]
    simp only [hb]

theorem decodeConfigMember_given (l : List (String × JValue)) (m : String × JValue)
    (hnoport : findField configFields m.1 ≠ some "port")
    (hwell : findField configFields m.1 = none ∨ ∃ s, m.2 = .string s) :
    decodeConfigMember
        (⟨givenString "cookie" l, givenString "image_path" l, givenString "referer" l, 0⟩, none) m
      = (⟨givenString "cookie" (l ++ [m]), givenString "image_path" (l ++ [m]),
          givenString "referer" (l ++ [m]), 0⟩, none) := by
  rw [givenString_snoc, givenString_snoc, givenString_snoc]
  unfold decodeConfigMember
  rcases hwell with hnone | ⟨s, hs⟩
  · rw [hnone]
    simp
  · rw [hs]
    simp only [storeString_string]
    split
    · rename_i hf
      rw [hf]
      simp
    · rename_i hf
      rw [hf]
      simp
    · rename_i hf
      rw [hf]
      simp
    · rename_i hport
      exact absurd hport hnoport
    · rename_i h1 h2 h3 h4
      have hc : findField configFields m.1 ≠ some "cookie" := h1
      have hi : findField configFields m.1 ≠ some "image_path" := h2
      have hr : findField configFields m.1 ≠ some "referer" := h3
      rw [if_neg hc, if_neg hi, if_neg hr]

theorem foldl_decodeConfigMember_given (members : List (String × JValue))
    (hnoport : ∀ m ∈ members, findField configFields m.1 ≠ some "port")
    (hwell : ∀ m ∈ members, findField configFields m.1 = none ∨ ∃ s, m.2 = .string s) :
    members.foldl decodeConfigMember (Config.zero, none)
      = (⟨givenString "cookie" members, givenString "image_path" members,
          givenString "referer" members, 0⟩, none) := by
  induction members using List.reverseRecOn with
  | nil => rfl
  | append_singleton l m ih =>
    rw [List.foldl_append, List.foldl_cons, List.foldl_nil,
      ih (fun x hx => hnoport x (List.mem_append_left _ hx))
        (fun x hx => hwell x (List.mem_append_left _ hx))]
    exact decodeConfigMember_given l m (hnoport m (by simp)) (hwell m (by simp))

theorem decodeConfig_three_strings (c i r : String) :
    decodeConfig Config.zero
        (.object [("cookie", .string c), ("image_path", .string i), ("referer", .string r)])
      = (⟨c, i, r, 0⟩, none) := rfl

/-- C9, counterexample: with a configuration document that has no `port` field and a listener
that accepts the address `:0`, `main` loads the configuration with `Port = 0`, passes `:0` to
the run step, and does not terminate with a startup failure. -/
theorem main_port_zero_keeps_serving :
    loadConfig (worldWith configDocNoPort (fun _ => .serving)).fs "/srv/weibo/config.json"
        = (⟨"SUB=secret", "fallback.png", "https://weibo.com/", 0⟩, none) ∧
      main (worldWith configDocNoPort (fun _ => .serving))
        = { listenAddr := some ":0", fatal := none,
            stdout := ["[GIN-debug] Listening and serving HTTP on :0\n"], stderr := [] } := by
  decide

/-- C9, amended: loading a configuration document that is an object with no `port` member and
string values for the members that select a field succeeds with `Port = 0` and every other
field as the document gives it (the string of the last member that selects the field, in any
order and among unknown members; for the three members `cookie`, `image_path`, `referer` their
three strings), and `main` passes the address `:0` to the run step; the program does not
reject the port itself: it ends with the startup failure exactly when the run step fails, and
keeps serving when the listener accepts the address. -/
theorem load_without_port (w : World) (doc rest : List UInt8) (members : List (String × JValue))
    (hopen : w.fs.openFile (w.join w.dir "config.json") = .ok doc)
    (hparse : parseJSON doc = some (.object members, rest))
    (hnoport : ∀ m ∈ members, findField configFields m.1 ≠ some "port")
    (hwell : ∀ m ∈ members, findField configFields m.1 = none ∨ ∃ s, m.2 = .string s) :
    loadConfig w.fs (w.join w.dir "config.json")
        = (⟨givenString "cookie" members, givenString "image_path" members,
            givenString "referer" members, 0⟩, none) ∧
      (∀ c i r : String,
        members = [("cookie", .string c), ("image_path", .string i), ("referer", .string r)] →
        loadConfig w.fs (w.join w.dir "config.json") = (⟨c, i, r, 0⟩, none)) ∧
      (main w).listenAddr = some ":0" ∧
      (∀ cause : String,
        (main w).fatal = some ⟨"服务器启动失败: ", some (.listen ":0" cause)⟩ ↔
          w.run ":0" = .failed cause) ∧
      (w.run ":0" = .serving →
        main w = { listenAddr := some ":0", fatal := none, stdout := ginBanner w.ginDebug ":0",
                   stderr := [] }) := by
  have hload : loadConfig w.fs (w.join w.dir "config.json")
      = decodeConfig Config.zero (.object members) := by
    unfold loadConfig
    rw [hopen]
    exact decoderDecode_of_parse doc rest _ _ hparse
  have hgiven : loadConfig w.fs (w.join w.dir "config.json")
      = (⟨givenString "cookie" members, givenString "image_path" members,
          givenString "referer" members, 0⟩, none) := by
    rw [hload]
    exact foldl_decodeConfigMember_given members hnoport hwell
  have hmain := main_of_loaded w _ hgiven
  have haddr : ":" ++ fmtInt 0 = ":0" := by decide
  simp only [haddr] at hmain
  refine ⟨hgiven, ?_, ?_, ?_, ?_⟩
  · intro c i r hmem
    rw [hload, hmem, decodeConfig_three_strings]
  · rw [hmain]
    split <;> rfl
  · intro cause
    rw [hmain]
    constructor
    · intro hf
      split at hf
      · simp at hf
      · rename_i cause2 hrun
        simp only [Option.some.injEq, LogLine.mk.injEq, true_and, GoError.listen.injEq] at hf
        rw [hrun, hf]
    · intro hrun
      rw [hrun]
  · intro hrun
    rw [hmain, hrun]

/-- Witness for C9: a document without `port` whose members come in another order, with an
unknown member and a repeated `cookie`, and a listener that fails to bind. -/
theorem load_without_port_witness :
    loadConfig (worldWith configDocShuffled (fun _ => .failed "bind: permission denied")).fs
        "/srv/weibo/config.json"
      = (⟨"SUB=secret", "fallback.png", "https://weibo.com/", 0⟩, none) :=
  (load_without_port
    (worldWith configDocShuffled (fun _ => .failed "bind: permission denied"))
    configDocShuffled []
    [("referer", .string "https://weibo.com/"), ("cookie", .string "SUB=old"),
      ("note", .array [.number "1", .number "2"]), ("image_path", .string "fallback.png"),
      ("Cookie", .string "SUB=secret")]
    rfl rfl (by decide)
    (by
      intro m hm
      simp only [List.mem_cons, List.mem_singleton, List.not_mem_nil, or_false] at hm
      rcases hm with rfl | rfl | rfl | rfl | rfl
      · exact Or.inr ⟨_, rfl⟩
      · exact Or.inr ⟨_, rfl⟩
      · exact Or.inl (by decide)
      · exact Or.inr ⟨_, rfl⟩
      · exact Or.inr ⟨_, rfl⟩)).1

end Weibo
